import Mathlib

/-!
# Verification development for `standalone` (install.go)

A shallow embedding of the provisioning pipeline of `install.go`:

* Go strings are lists of characters (`Str`); the functions of the Go standard
  library that the installer calls (`filepath.Clean`, `filepath.Join`,
  `filepath.Dir`, `strings.Replace`, `strings.HasPrefix`, `strings.TrimSuffix`)
  are modelled for a Unix host (separator `/`, no volume names).
* The filesystem is an explicit state (`FS`) passed through every operation.
* The container runtime is an explicit state machine passed as a parameter;
  every subprocess that the installer starts is recorded in `issued`.
-/

set_option autoImplicit false

namespace Standalone

/-! ## Go strings -/

/-- A Go string, as the list of its characters. -/
abbrev Str := List Char

/-- The path separator of the host (`os.PathSeparator` on Unix). -/
def Separator : Char := '/'

/-- Model of `strings.HasPrefix(s, pre)`. -/
def HasPrefix (s pre : Str) : Bool := pre.isPrefixOf s

/-- Model of `strings.Replace(s, old, "", 1)`: the first occurrence of `old`
in `s` (leftmost) is removed; `s` is returned unchanged when there is none. -/
def removeFirst (old : Str) : Str → Str
  | [] => []
  | c :: cs => if old.isPrefixOf (c :: cs) then (c :: cs).drop old.length
               else c :: removeFirst old cs

/-- Model of `strings.TrimSuffix(s, suf)`. -/
def TrimSuffix (s suf : Str) : Str :=
  if suf.isSuffixOf s then s.take (s.length - suf.length) else s

/-- Model of `strings.Join(elems, sep)`. -/
def stringsJoin (sep : Str) : List Str → Str
  | [] => []
  | [e] => e
  | e :: es => e ++ sep ++ stringsJoin sep es

/-! ## `path/filepath` on Unix -/

/-- The elements of a path: the pieces between separators (`"a//b"` has the
elements `a`, the empty element and `b`). -/
def splitSep : Str → List Str
  | [] => [[]]
  | c :: cs =>
    if c = Separator then [] :: splitSep cs
    else match splitSep cs with
      | [] => [[c]]
      | h :: t => (c :: h) :: t

/-- One step of the loop of `filepath.Clean`: `out` holds the elements kept so
far, the last one first.  An empty element and `.` are dropped; `..` removes the
last kept element when there is one that is not itself `..`, is dropped at the
root of a rooted path, and is kept otherwise; any other element is kept. -/
def cleanStep (rooted : Bool) (out : List Str) (e : Str) : List Str :=
  if e = [] then out
  else if e = ['.'] then out
  else if e = ['.', '.'] then
    match out with
    | [] => if rooted then [] else [e]
    | t :: rest => if t = ['.', '.'] then e :: out else rest
  else e :: out

/-- Model of `filepath.Clean` (Unix). -/
def Clean (path : Str) : Str :=
  match path with
  | [] => ['.']
  | c :: _ =>
    let rooted : Bool := c = Separator
    let kept := ((splitSep path).foldl (cleanStep rooted) []).reverse
    let body := stringsJoin [Separator] kept
    if rooted then Separator :: body
    else if body = [] then ['.'] else body

/-- Model of `filepath.Join(a, b)` (Unix): the non-empty arguments are joined
with the separator and the result is cleaned; all-empty arguments give `""`. -/
def Join (a b : Str) : Str :=
  if a ≠ [] then Clean (a ++ [Separator] ++ b)
  else if b ≠ [] then Clean b
  else []

/-- The part of a path up to and including its last separator. -/
def dirPrefix (path : Str) : Str :=
  (path.reverse.dropWhile (fun c => c ≠ Separator)).reverse

/-- Model of `filepath.Dir` (Unix). -/
def Dir (path : Str) : Str := Clean (dirPrefix path)

/-! ## Paths written from their elements -/

/-- The resolved path written from its elements. -/
def render (rooted : Bool) (elems : List Str) : Str :=
  if rooted then Separator :: stringsJoin [Separator] elems
  else if elems = [] then ['.'] else stringsJoin [Separator] elems

/-- An ordinary path element: not empty, not `.`, not `..`, and without
separator. -/
def Ordinary (e : Str) : Prop :=
  e ≠ [] ∧ e ≠ ['.'] ∧ e ≠ ['.', '.'] ∧ Separator ∉ e

instance (e : Str) : Decidable (Ordinary e) := by
  unfold Ordinary
  infer_instance

/-- A directory followed by a separator; the root already ends with one. -/
def withSeparator (dir : Str) : Str :=
  if dir = [Separator] then dir else dir ++ [Separator]

/-! ## Errors -/

/-- The error numbers of the operating system that the model distinguishes. -/
inductive Errno
  | ENOENT
  | EACCES
  | ENOTDIR
  | EISDIR
  deriving DecidableEq, Repr

/-- The text of an error number (`syscall.Errno.Error`). -/
def Errno.text : Errno → Str
  | .ENOENT => "no such file or directory".toList
  | .EACCES => "permission denied".toList
  | .ENOTDIR => "not a directory".toList
  | .EISDIR => "is a directory".toList

/-- A Go `error` value, by the dynamic type that the installer can observe:
`*fs.PathError`, `*exec.ExitError`, the plain error of `errors.New` and of
`fmt.Errorf` without `%w`, and the wrapping error of `fmt.Errorf` with `%w`
(`pre` is the text before the wrapped error). -/
inductive GoError
  | pathError (op : Str) (path : Str) (errno : Errno)
  | exitError (code : Nat)
  | errorString (msg : Str)
  | wrapError (pre : Str) (inner : GoError)
  deriving DecidableEq, Repr

/-- The method `Error()` of an error value. -/
def GoError.Error : GoError → Str
  | .pathError op path errno => op ++ " ".toList ++ path ++ ": ".toList ++ errno.text
  | .exitError code => "exit status ".toList ++ (Nat.repr code).toList
  | .errorString msg => msg
  | .wrapError pre inner => pre ++ inner.Error

/-! ## The filesystem -/

/-- File contents. -/
abbrev Bytes := List UInt8

/-- What a path names: a directory or a regular file, with its permission bits. -/
inductive Node
  | dir (perm : Nat)
  | file (perm : Nat) (data : Bytes)
  deriving DecidableEq, Repr

/-- A call that changes the filesystem, with the path exactly as the program
passed it. -/
inductive FsCall
  | mkdirAll (path : Str) (perm : Nat)
  | openFile (path : Str) (perm : Nat)
  | write (path : Str) (data : Bytes)
  deriving DecidableEq, Repr

/-- The path of a call. -/
def FsCall.path : FsCall → Str
  | .mkdirAll path _ => path
  | .openFile path _ => path
  | .write path _ => path

/-- The state of the filesystem.  `node` maps a resolved path (a path cleaned
by `Clean`: resolution is lexical, there are no symbolic links) to what it
names; `denied` marks the paths whose lookup fails with `EACCES` (a directory
on the way cannot be searched), for every operation alike; `readOnly` marks the
paths that cannot be created or opened for writing; `calls` records the
mutating calls issued so far, oldest first. -/
structure FS where
  node : Str → Option Node
  denied : Str → Bool
  readOnly : Str → Bool
  calls : List FsCall

/-- The state with `n` stored at the resolved path `k`. -/
def FS.set (fs : FS) (k : Str) (n : Node) : FS :=
  { fs with node := fun q => if q = k then some n else fs.node q }

/-- The state after recording the call `c`. -/
def FS.record (fs : FS) (c : FsCall) : FS :=
  { fs with calls := fs.calls ++ [c] }

/-- The permission bits of `fs.FileMode` (`os.ModePerm`). -/
def ModePerm : Nat := 0o777
/-- The bit `fs.ModeDir`. -/
def ModeDir : Nat := 2 ^ 31
/-- The bit `fs.ModeSymlink`. -/
def ModeSymlink : Nat := 2 ^ 27
/-- The bit `fs.ModeSetuid`. -/
def ModeSetuid : Nat := 2 ^ 23
/-- The bit `fs.ModeSetgid`. -/
def ModeSetgid : Nat := 2 ^ 22
/-- The bit `fs.ModeSticky`. -/
def ModeSticky : Nat := 2 ^ 20

/-- The method `FileMode.IsDir`. -/
def IsDir (m : Nat) : Bool := m &&& ModeDir ≠ 0

/-- The function `syscallMode` of package `os`: the bits of a `FileMode` that
reach the system call. -/
def syscallMode (m : Nat) : Nat :=
  (m &&& ModePerm)
    ||| (if m &&& ModeSetuid ≠ 0 then 0o4000 else 0)
    ||| (if m &&& ModeSetgid ≠ 0 then 0o2000 else 0)
    ||| (if m &&& ModeSticky ≠ 0 then 0o1000 else 0)

/-- The directories on the way to the resolved path `k`, outermost first, and
`k` itself last. -/
def chain (k : Str) : List Str :=
  let rooted : Bool := k.head? = some Separator
  let elems := (splitSep k).filter (fun e => e ≠ [] ∧ e ≠ ['.'])
  (List.inits elems).map (render rooted)

/-- Whether a regular file stands on the way to the resolved path `k`, so
that looking `k` up fails with `ENOTDIR`. -/
def blocked (fs : FS) (k : Str) : Bool :=
  (chain k).dropLast.any (fun a => match fs.node a with | some (.file _ _) => true | _ => false)

/-- Model of `os.Stat`: `EACCES` when the lookup is denied, `ENOTDIR` when a
regular file stands on the way, `ENOENT` when nothing is there. -/
def Stat (fs : FS) (path : Str) : Except Errno Node :=
  let k := Clean path
  if fs.denied k then .error .EACCES
  else if blocked fs k then .error .ENOTDIR
  else match fs.node k with
    | some n => .ok n
    | none => .error .ENOENT

/-- Model of `os.IsNotExist` on the result of `Stat`. -/
def IsNotExist : Except Errno Node → Bool
  | .error .ENOENT => true
  | _ => false

/-- One directory of `os.MkdirAll`: nothing to do when it is there, an error
when a regular file is there or it cannot be created, created otherwise. -/
def mkdirOne (perm : Nat) (acc : Option Errno × FS) (a : Str) : Option Errno × FS :=
  match acc with
  | (some e, fs) => (some e, fs)
  | (none, fs) =>
    match fs.node a with
    | some (.dir _) => (none, fs)
    | some (.file _ _) => (some .ENOTDIR, fs)
    | none =>
      if fs.denied a || fs.readOnly a then (some .EACCES, fs)
      else (none, fs.set a (.dir (syscallMode perm)))

/-- Model of `os.MkdirAll(path, perm)`: the missing directories on the way to
`path` and `path` itself are created, outermost first. -/
def MkdirAll (path : Str) (perm : Nat) (fs : FS) : Option GoError × FS :=
  let k := Clean path
  let fs0 := fs.record (.mkdirAll path perm)
  if fs.denied k then (some (.pathError "mkdir".toList path .EACCES), fs0)
  else match (chain k).foldl (mkdirOne perm) (none, fs0) with
    | (some e, fs1) => (some (.pathError "mkdir".toList path e), fs1)
    | (none, fs1) => (none, fs1)

/-- Model of `os.OpenFile(path, O_WRONLY|O_CREATE|O_TRUNC, perm)`: an existing
regular file is truncated and keeps its permissions, a missing one is created
empty in an existing directory. -/
def OpenFile (path : Str) (perm : Nat) (fs : FS) : Option GoError × FS :=
  let k := Clean path
  let fs0 := fs.record (.openFile path perm)
  let fail := fun (e : Errno) => (some (GoError.pathError "open".toList path e), fs0)
  if fs.denied k then fail .EACCES
  else if blocked fs k then fail .ENOTDIR
  else match fs.node k with
    | some (.dir _) => fail .EISDIR
    | some (.file m _) =>
      if fs.readOnly k then fail .EACCES else (none, fs0.set k (.file m []))
    | none =>
      match fs.node (Dir k) with
      | none => fail .ENOENT
      | some (.file _ _) => fail .ENOTDIR
      | some (.dir _) =>
        if fs.readOnly k then fail .EACCES
        else (none, fs0.set k (.file (syscallMode perm) []))

/-- Writing `data` to the file just opened at `path` (the body of `io.Copy` and
of `File.Write`): the file holds `data` afterwards. -/
def writeOpen (path : Str) (data : Bytes) (fs : FS) : FS :=
  let k := Clean path
  let fs0 := fs.record (.write path data)
  match fs.node k with
  | some (.file m _) => fs0.set k (.file m data)
  | _ => fs0

/-- Model of `ioutil.WriteFile(path, data, perm)`: open with
`O_WRONLY|O_CREATE|O_TRUNC`, write, close. -/
def WriteFile (path : Str) (data : Bytes) (perm : Nat) (fs : FS) : Option GoError × FS :=
  match OpenFile path perm fs with
  | (some e, fs1) => (some e, fs1)
  | (none, fs1) => (none, writeOpen path data fs1)

/-! ## Config writer -/

/-- The function `checkAndOverWriteFile` of install.go. -/
def checkAndOverWriteFile (filePath : Str) (b : Bytes) (fs : FS) : Option GoError × FS :=
  let err := Stat fs filePath
  if IsNotExist err then
    match WriteFile filePath b 0o644 fs with
    | (some e, fs1) => (some e, fs1)
    | (none, fs1) => (none, fs1)
  else (none, fs)

/-! ## Archive extractor -/

/-- The header of a tar entry, as far as `extractTarGz` reads it. -/
structure TarHeader where
  Name : Str
  Typeflag : Char
  Mode : Nat
  deriving DecidableEq, Repr

/-- What one call of `tarReader.Next()` yields before the end of the archive:
an entry, with the bytes that reading it delivers and the error, if any, that
ends the reading; or an error other than `io.EOF`. -/
inductive TarItem
  | entry (header : TarHeader) (data : Bytes) (readErr : Option GoError)
  | corrupt (err : GoError)
  deriving DecidableEq, Repr

/-- The constant `tar.TypeReg`. -/
def TypeReg : Char := '0'
/-- The constant `tar.TypeSymlink`. -/
def TypeSymlink : Char := '2'
/-- The constant `tar.TypeChar`. -/
def TypeChar : Char := '3'
/-- The constant `tar.TypeDir`. -/
def TypeDir : Char := '5'

/-- The value of `removePath` in both extractors:
`filepath.Join("release", osarch)`. -/
def removePath (osarch : Str) : Str := Join "release".toList osarch

/-- The body of the loop of `extractTarGz` for one entry. -/
def extractTarEntry (osarch base : Str) (header : TarHeader) (data : Bytes)
    (readErr : Option GoError) (fs : FS) : Option GoError × FS :=
  let p := Join base header.Name
  let p := removeFirst (removePath osarch) p
  if header.Typeflag = TypeDir then
    MkdirAll p 0o755 fs
  else if header.Typeflag = TypeReg then
    match OpenFile p (header.Mode &&& ModePerm) fs with
    | (some err, fs1) => (some err, fs1)
    | (none, fs1) =>
      let fs2 := writeOpen p data fs1
      match readErr with
      | some err => (some err, fs2)
      | none => (none, fs2)
  else
    (some (.errorString ("extractTarGz: uknown type: ".toList
        ++ Nat.toDigits 2 header.Typeflag.toNat ++ " in ".toList ++ header.Name)), fs)

/-- The loop of `extractTarGz` over what `tarReader.Next()` yields. -/
def extractTarLoop (osarch base : Str) : List TarItem → FS → Option GoError × FS
  | [], fs => (none, fs)
  | .corrupt err :: _, fs =>
    (some (.wrapError "extractTarGz: Next() failed: ".toList err), fs)
  | .entry header data readErr :: rest, fs =>
    match extractTarEntry osarch base header data readErr fs with
    | (some err, fs1) => (some err, fs1)
    | (none, fs1) => extractTarLoop osarch base rest fs1

/-- The function `extractTarGz` of install.go.  The stream is given by what
`gzip.NewReader` returns: an error, or the items of the tar archive inside. -/
def extractTarGz (osarch : Str) (gzipStream : Except GoError (List TarItem)) (base : Str)
    (fs : FS) : Option GoError × FS :=
  match gzipStream with
  | .error err => (some err, fs)
  | .ok items => extractTarLoop osarch base items fs

/-- An entry of a zip archive (`*zip.File`): its name, its `fs.FileMode`, the
error of `Open()` if it fails, the bytes that reading it delivers and the error,
if any, that ends the reading. -/
structure ZipFile where
  Name : Str
  Mode : Nat
  openErr : Option GoError
  data : Bytes
  readErr : Option GoError
  deriving DecidableEq, Repr

/-- The body of the loop of `unzip` for one entry: `none` in the first
component means that the loop goes on with the next entry, `some r` that
`unzip` returns `r`. -/
def unzipEntry (osarch dest : Str) (f : ZipFile) (filenames : List Str) (fs : FS) :
    Option (Option GoError) × List Str × FS :=
  let fpath := Join dest f.Name
  let fpath := removeFirst (removePath osarch) fpath
  if !HasPrefix fpath (Clean dest ++ [Separator]) then
    (some (some (.errorString (fpath ++ ": illegal file path".toList))), filenames, fs)
  else
    let filenames := filenames ++ [fpath]
    if IsDir f.Mode then
      let fs1 := (MkdirAll fpath ModePerm fs).2
      (none, filenames, fs1)
    else
      match MkdirAll (Dir fpath) ModePerm fs with
      | (some err, fs1) => (some (some err), filenames, fs1)
      | (none, fs1) =>
        match OpenFile fpath f.Mode fs1 with
        | (some err, fs2) => (some (some err), filenames, fs2)
        | (none, fs2) =>
          match f.openErr with
          | some err => (some (some err), filenames, fs2)
          | none =>
            let fs3 := writeOpen fpath f.data fs2
            match f.readErr with
            | some err => (some (some err), filenames, fs3)
            | none => (none, filenames, fs3)

/-- The loop of `unzip` over the entries of the archive. -/
def unzipLoop (osarch dest : Str) : List ZipFile → List Str → FS →
    (List Str × Option GoError) × FS
  | [], filenames, fs => ((filenames, none), fs)
  | f :: rest, filenames, fs =>
    match unzipEntry osarch dest f filenames fs with
    | (some r, filenames1, fs1) => ((filenames1, r), fs1)
    | (none, filenames1, fs1) => unzipLoop osarch dest rest filenames1 fs1

/-- The function `unzip` of install.go.  The source is given by what
`zip.NewReader` returns: an error, or the entries of the archive. -/
def unzip (osarch : Str) (src : Except GoError (List ZipFile)) (dest : Str) (fs : FS) :
    (List Str × Option GoError) × FS :=
  match src with
  | .error err => (([], some err), fs)
  | .ok files => unzipLoop osarch dest files [] fs

/-- A filesystem that holds the directories `dirs` and nothing else, with no
access restriction and no call recorded. -/
def fsOfDirs (dirs : List Str) : FS :=
  { node := fun q => if q ∈ dirs then some (.dir 0o755) else none
    denied := fun _ => false
    readOnly := fun _ => false
    calls := [] }

/-! ## Container controller -/

/-- What happens to one subprocess, stage by stage in the order in which
`RunCmdAndWait` goes through them: the errors of `StdoutPipe`, `StderrPipe` and
`Start`, what reading the standard output delivers and the error of that
reading, the same for the standard error, and the error of `Wait`. -/
structure Proc where
  stdoutPipeErr : Option GoError
  stderrPipeErr : Option GoError
  startErr : Option GoError
  stdout : Str
  stdoutErr : Option GoError
  stderr : Str
  stderrErr : Option GoError
  waitErr : Option GoError
  deriving DecidableEq, Repr

/-- The world of subprocesses: the state of the container runtime, and the
command lines handed to `RunCmdAndWait` so far (program name first), oldest
first. -/
structure World (σ : Type) where
  state : σ
  issued : List (List Str)

/-- A container runtime: from its state and the arguments of a command, what
happens to the subprocess and the next state. -/
abbrev Runtime (σ : Type) := σ → List Str → Proc × σ

/-- The function `RunCmdAndWait` of install.go. -/
def RunCmdAndWait {σ : Type} (rt : Runtime σ) (name : Str) (args : List Str) (w : World σ) :
    (Str × Option GoError) × World σ :=
  let (proc, st) := rt w.state args
  let w1 : World σ := { state := st, issued := w.issued ++ [name :: args] }
  match proc.stdoutPipeErr with
  | some err => (([], some err), w1)
  | none =>
  match proc.stderrPipeErr with
  | some err => (([], some err), w1)
  | none =>
  match proc.startErr with
  | some err => (([], some err), w1)
  | none =>
  let resp := proc.stdout
  match proc.stdoutErr with
  | some err => (([], some err), w1)
  | none =>
  let errB := proc.stderr
  match proc.stderrErr with
  | some _ => (([], none), w1)
  | none =>
  match proc.waitErr with
  | some err =>
    if errB.length > 0 then (([], some (.errorString errB)), w1)
    else (([], some err), w1)
  | none => ((resp, none), w1)

/-- The constant `daprDockerImageName`. -/
def daprDockerImageName : Str := "daprio/dapr".toList
/-- The constant `DaprPlacementContainerName`. -/
def DaprPlacementContainerName : Str := "dapr_placement".toList
/-- The constant `DaprRedisContainerName`. -/
def DaprRedisContainerName : Str := "dapr_redis".toList
/-- The constant `DaprZipkinContainerName`. -/
def DaprZipkinContainerName : Str := "dapr_zipkin".toList

/-- The function `createContainerName` of install.go. -/
def createContainerName (serviceContainerName dockerNetwork : Str) : Str :=
  if dockerNetwork ≠ [] then serviceContainerName ++ "_".toList ++ dockerNetwork
  else serviceContainerName

/-- The function `isContainerRunError` of install.go. -/
def isContainerRunError : GoError → Bool
  | .exitError exitCode => exitCode = 125
  | _ => false

/-- The function `parseDockerError` of install.go. -/
def parseDockerError (component : Str) (err : GoError) : GoError :=
  match err with
  | .exitError exitCode =>
    if exitCode = 125 then
      .errorString ("failed to launch ".toList ++ component ++ ". Is it already running?".toList)
    else if exitCode = 127 then
      .errorString ("failed to launch ".toList ++ component
        ++ ". Make sure Docker is installed and running".toList)
    else err
  | _ => err

/-- The text of a slice of strings under the verb `%s` of package `fmt`. -/
def fmtArgs (args : List Str) : Str := "[".toList ++ stringsJoin " ".toList args ++ "]".toList

/-- The function `confirmContainerIsRunningOrExists` of install.go. -/
def confirmContainerIsRunningOrExists {σ : Type} (rt : Runtime σ) (containerName : Str)
    (isRunning : Bool) (w : World σ) : (Bool × Option GoError) × World σ :=
  let args := ["ps".toList, "--all".toList, "--filter".toList, "name=".toList ++ containerName]
  let args := if isRunning then args ++ ["--filter".toList, "status=running".toList] else args
  let args := args ++ ["--format".toList, "\x7b\x7b.Names\x7d\x7d".toList]
  let ((response, err), w1) := RunCmdAndWait rt "docker".toList args w
  let response := TrimSuffix response "\n".toList
  match err with
  | some e =>
    ((false, some (.errorString ("unable to confirm whether ".toList ++ containerName
      ++ " is running or exists. error\n".toList ++ e.Error))), w1)
  | none =>
    if response = [] ∨ response ≠ containerName then
      if isRunning then
        ((false, some (.errorString ("container ".toList ++ containerName
          ++ " is not running".toList))), w1)
      else ((false, none), w1)
    else ((true, none), w1)

/-- The function `removeDockerContainer` of install.go. -/
def removeDockerContainer {σ : Type} (rt : Runtime σ) (containerName network : Str)
    (w : World σ) : Option GoError × World σ :=
  let container := createContainerName containerName network
  let ((exists_, _), w1) := confirmContainerIsRunningOrExists rt container false w
  if !exists_ then (none, w1)
  else
    let ((_, err), w2) :=
      RunCmdAndWait rt "docker".toList ["rm".toList, "--force".toList, container] w1
    (err, w2)

/-- What the three `run...` functions of install.go do with the result of the
subprocess that creates or starts the container. -/
def launchResult (component : Str) (args : List Str) (err : Option GoError) : Option GoError :=
  match err with
  | some e =>
    let runError := isContainerRunError e
    if !runError then some (parseDockerError component e)
    else some (.errorString ("docker ".toList ++ fmtArgs args ++ " failed with: ".toList
      ++ e.Error))
  | none => none

/-- The arguments that `runPlacementService` builds (`goos` is `runtime.GOOS`). -/
def placementArgs (goos version dockerNetwork : Str) : List Str :=
  let placementContainerName := createContainerName DaprPlacementContainerName dockerNetwork
  let image := daprDockerImageName ++ ":".toList ++ version
  let args := ["run".toList, "--name".toList, placementContainerName,
    "--restart".toList, "always".toList, "-d".toList,
    "--entrypoint".toList, "./placement".toList]
  let args :=
    if dockerNetwork ≠ [] then
      args ++ ["--network".toList, dockerNetwork,
        "--network-alias".toList, DaprPlacementContainerName]
    else
      let osPort := if goos = "windows".toList then 6050 else 50005
      args ++ ["-p".toList, (Nat.repr osPort).toList ++ ":50005".toList]
  args ++ [image]

/-- The function `runPlacementService` of install.go. -/
def runPlacementService {σ : Type} (rt : Runtime σ) (goos version dockerNetwork : Str)
    (w : World σ) : Option GoError × World σ :=
  let placementContainerName := createContainerName DaprPlacementContainerName dockerNetwork
  let ((exists_, err), w1) := confirmContainerIsRunningOrExists rt placementContainerName false w
  match err with
  | some e => (some e, w1)
  | none =>
    if exists_ then
      (some (.errorString (placementContainerName ++ " container exists or is running".toList)), w1)
    else
      let args := placementArgs goos version dockerNetwork
      let ((_, err), w2) := RunCmdAndWait rt "docker".toList args w1
      (launchResult "placement service".toList args err, w2)

/-- The arguments that `runZipkin` builds, given whether the container exists. -/
def zipkinArgs (dockerNetwork : Str) (exists_ : Bool) : List Str :=
  let zipkinContainerName := createContainerName DaprZipkinContainerName dockerNetwork
  let args : List Str := []
  if exists_ then
    args ++ ["start".toList, zipkinContainerName]
  else
    let args := args ++ ["run".toList, "--name".toList, zipkinContainerName,
      "--restart".toList, "always".toList, "-d".toList]
    let args :=
      if dockerNetwork ≠ [] then
        args ++ ["--network".toList, dockerNetwork,
          "--network-alias".toList, DaprZipkinContainerName]
      else
        args ++ ["-p".toList, "9411:9411".toList]
    args ++ ["openzipkin/zipkin".toList]

/-- The function `runZipkin` of install.go. -/
def runZipkin {σ : Type} (rt : Runtime σ) (dockerNetwork : Str) (w : World σ) :
    Option GoError × World σ :=
  let zipkinContainerName := createContainerName DaprZipkinContainerName dockerNetwork
  let ((exists_, err), w1) := confirmContainerIsRunningOrExists rt zipkinContainerName false w
  match err with
  | some e => (some e, w1)
  | none =>
    let args := zipkinArgs dockerNetwork exists_
    let ((_, err), w2) := RunCmdAndWait rt "docker".toList args w1
    (launchResult "Zipkin tracing".toList args err, w2)

/-- The arguments that `runRedis` builds, given whether the container exists. -/
def redisArgs (dockerNetwork : Str) (exists_ : Bool) : List Str :=
  let redisContainerName := createContainerName DaprRedisContainerName dockerNetwork
  let args : List Str := []
  if exists_ then
    args ++ ["start".toList, redisContainerName]
  else
    let args := args ++ ["run".toList, "--name".toList, redisContainerName,
      "--restart".toList, "always".toList, "-d".toList]
    let args :=
      if dockerNetwork ≠ [] then
        args ++ ["--network".toList, dockerNetwork,
          "--network-alias".toList, DaprRedisContainerName]
      else
        args ++ ["-p".toList, "6379:6379".toList]
    args ++ ["redis".toList]

/-- The function `runRedis` of install.go. -/
def runRedis {σ : Type} (rt : Runtime σ) (dockerNetwork : Str) (w : World σ) :
    Option GoError × World σ :=
  let redisContainerName := createContainerName DaprRedisContainerName dockerNetwork
  let ((exists_, err), w1) := confirmContainerIsRunningOrExists rt redisContainerName false w
  match err with
  | some e => (some e, w1)
  | none =>
    let args := redisArgs dockerNetwork exists_
    let ((_, err), w2) := RunCmdAndWait rt "docker".toList args w1
    (launchResult "Redis state store".toList args err, w2)

/-- The container phase of `Install` (from `dockerNetwork := ""` to the last
`run...` call): the placement container is removed, then the three
containers are started in turn, stopping at the first error. -/
def installContainers {σ : Type} (rt : Runtime σ) (goos versionNum : Str) (w : World σ) :
    Option GoError × World σ :=
  let dockerNetwork : Str := []
  match removeDockerContainer rt DaprPlacementContainerName dockerNetwork w with
  | (some err, w1) =>
    (some (.wrapError "could not stop previously installed placement service: ".toList err), w1)
  | (none, w1) =>
  match runPlacementService rt goos versionNum dockerNetwork w1 with
  | (some err, w2) => (some (.wrapError "could not start placement service: ".toList err), w2)
  | (none, w2) =>
  match runRedis rt dockerNetwork w2 with
  | (some err, w3) => (some (.wrapError "could not start redis: ".toList err), w3)
  | (none, w3) =>
  match runZipkin rt dockerNetwork w3 with
  | (some err, w4) => (some (.wrapError "could not start zipkin: ".toList err), w4)
  | (none, w4) => (none, w4)

/-! ## A model of the container runtime

The installer depends on the documented behaviour of five subcommands of the
`docker` command line.  The model below is used to run the container
controller on concrete runtime states. -/

/-- A container known to the runtime. -/
structure Container where
  name : Str
  running : Bool
  deriving DecidableEq, Repr

/-- Whether `pat` occurs in `s` (`strings.Contains`). -/
def occursIn (pat : Str) : Str → Bool
  | [] => pat.isPrefixOf []
  | c :: cs => pat.isPrefixOf (c :: cs) || occursIn pat cs

/-- The argument that follows the first occurrence of `flag`. -/
def argAfter (flag : Str) : List Str → Option Str
  | [] => none
  | [_] => none
  | a :: b :: rest => if a = flag then some b else argAfter flag (b :: rest)

/-- A subprocess that prints `out` and exits with status 0. -/
def Proc.succeed (out : Str) : Proc :=
  { stdoutPipeErr := none, stderrPipeErr := none, startErr := none,
    stdout := out, stdoutErr := none, stderr := [], stderrErr := none, waitErr := none }

/-- A subprocess that prints `errOut` on its standard error and exits with the
non-zero status `code`. -/
def Proc.exit (code : Nat) (errOut : Str) : Proc :=
  { stdoutPipeErr := none, stderrPipeErr := none, startErr := none,
    stdout := [], stdoutErr := none, stderr := errOut, stderrErr := none,
    waitErr := some (.exitError code) }

/-- The docker command line on a set of containers.
`ps --all --filter name=<n> [--filter status=running] --format <f>` prints,
one per line, the names of the containers whose name contains `<n>` (the name
filter matches all or part of a name); `rm --force <n>` removes the container
named `<n>`; `run --name <n> ...` creates and starts a container, and fails
with status 125 when the name is in use; `start <n>` starts a container. -/
def docker : Runtime (List Container) := fun st args =>
  match args with
  | [] => (Proc.exit 1 "docker: missing command\n".toList, st)
  | cmd :: rest =>
    if cmd = "ps".toList then
      let pat := ((argAfter "--filter".toList rest).getD []).drop 5
      let onlyRunning : Bool := "status=running".toList ∈ rest
      let listed := st.filter (fun c => occursIn pat c.name && (!onlyRunning || c.running))
      (Proc.succeed (listed.map (fun c => c.name ++ "\n".toList)).flatten, st)
    else if cmd = "rm".toList then
      let n := rest.getLast?.getD []
      if st.any (fun c => c.name = n) then
        (Proc.succeed (n ++ "\n".toList), st.filter (fun c => c.name ≠ n))
      else (Proc.exit 1 ("Error: No such container: ".toList ++ n ++ "\n".toList), st)
    else if cmd = "run".toList then
      let n := (argAfter "--name".toList rest).getD []
      if st.any (fun c => c.name = n) then
        (Proc.exit 125 ("docker: Error response from daemon: Conflict. The container name \"/".toList
          ++ n ++ "\" is already in use.\n".toList), st)
      else (Proc.succeed "0123456789ab\n".toList, st ++ [{ name := n, running := true }])
    else if cmd = "start".toList then
      let n := rest.getLast?.getD []
      if st.any (fun c => c.name = n) then
        (Proc.succeed (n ++ "\n".toList),
          st.map (fun c => if c.name = n then { c with running := true } else c))
      else (Proc.exit 1 ("Error: No such container: ".toList ++ n ++ "\n".toList), st)
    else (Proc.exit 125 ("docker: unknown command\n".toList), st)

/-- A runtime in which no container is ever listed and every other command
exits with status `code` and prints nothing. -/
def exitingRuntime (code : Nat) : Runtime Unit := fun st args =>
  if args.head? = some "ps".toList then (Proc.succeed [], st) else (Proc.exit code [], st)

/-- A runtime in which every command prints `listing` and exits with status 0. -/
def listingRuntime (listing : Str) : Runtime Unit := fun st _ => (Proc.succeed listing, st)

/-! ## The specification in definitions -/

/-- The effective container name, in the words of the specification:
`logical_name` if no network override is given, else
`logical_name + "_" + network`. -/
def specEffectiveName (logical network : Str) : Str :=
  if network = [] then logical else logical ++ "_".toList ++ network

/-- The creation command, in the words of the specification: `run`,
`--name <name>`, `--restart always`, `-d`, the optional `--entrypoint <ep>`,
then `--network <net> --network-alias <logical>` when a network override is
given and `-p <mapping>` otherwise, then the image reference. -/
def specCreationArgs (logical : Str) (entrypoint : Option Str) (mapping image network : Str) :
    List Str :=
  ["run".toList]
    ++ ["--name".toList, specEffectiveName logical network]
    ++ ["--restart".toList, "always".toList]
    ++ ["-d".toList]
    ++ (match entrypoint with
        | some ep => ["--entrypoint".toList, ep]
        | none => [])
    ++ (if network = [] then ["-p".toList, mapping]
        else ["--network".toList, network, "--network-alias".toList, logical])
    ++ [image]

/-- The listing command of `confirmContainerIsRunningOrExists` for any state. -/
def psCommand (containerName : Str) : List Str :=
  ["docker".toList, "ps".toList, "--all".toList, "--filter".toList,
    "name=".toList ++ containerName, "--format".toList, "\x7b\x7b.Names\x7d\x7d".toList]

/-- The error that the launch of a component returns when the subprocess
exits with the non-zero status `code` after printing `errOut` on its standard
error: the text of the standard error when there is one; otherwise, for status
125 the command line and the exit error, for status 127 the advice to install
and start Docker, and for any other status the exit error as it is. -/
def failureReport (component : Str) (args : List Str) (code : Nat) (errOut : Str) : GoError :=
  if errOut ≠ [] then .errorString errOut
  else if code = 125 then
    .errorString ("docker ".toList ++ fmtArgs args ++ " failed with: exit status 125".toList)
  else if code = 127 then
    .errorString ("failed to launch ".toList ++ component
      ++ ". Make sure Docker is installed and running".toList)
  else .exitError code

/-- The lines of a listing: the pieces that end with a newline, and what
follows the last newline when it is not empty. -/
def listingLines (listing : Str) : List Str :=
  (listing.splitOn '\n').filter (fun l => l ≠ [])

/-! ## Concrete inputs -/

/-- A zip archive with the single regular entry `.release/linux_amd64./x`. -/
def slipArchive : List ZipFile :=
  [{ Name := ".release/linux_amd64./x".toList, Mode := 0o644, openErr := none,
     data := [1, 2], readErr := none }]

/-- A tar archive with the single regular entry `../../../../etc/passwd`. -/
def passwdArchive : List TarItem :=
  [.entry { Name := "../../../../etc/passwd".toList, Typeflag := TypeReg, Mode := 0o644 }
    [1, 2] none]

/-- A filesystem with `/etc` and the installation directory `/home/u/.dapr/bin`. -/
def homeFS : FS :=
  fsOfDirs (["/", "/etc", "/home", "/home/u", "/home/u/.dapr", "/home/u/.dapr/bin"].map
    String.toList)

/-- A tar archive with the single regular entry `release/linux_amd64/bin/tool`. -/
def toolArchive : List TarItem :=
  [.entry { Name := "release/linux_amd64/bin/tool".toList, Typeflag := TypeReg, Mode := 0o755 }
    [1, 2] none]

/-- A zip archive with the single regular entry `release/linux_amd64/bin/tool`. -/
def toolZip : List ZipFile :=
  [{ Name := "release/linux_amd64/bin/tool".toList, Mode := 0o755, openErr := none,
     data := [1, 2], readErr := none }]

/-- A filesystem with the destination `/release/linux_amd64/out` and the
directory `/out/release/linux_amd64/bin`. -/
def nestedFS : FS :=
  fsOfDirs (["/", "/release", "/release/linux_amd64", "/release/linux_amd64/out",
    "/out", "/out/release", "/out/release/linux_amd64", "/out/release/linux_amd64/bin"].map
    String.toList)

/-- A zip archive with the single entry `link`, a symbolic link (its mode has
the bit `ModeSymlink`; its content is the target of the link, `/etc`). -/
def symlinkArchive : List ZipFile :=
  [{ Name := "link".toList, Mode := ModeSymlink ||| 0o777, openErr := none,
     data := [47, 101, 116, 99], readErr := none }]

/-- A tar archive with the single entry `link`, a symbolic link. -/
def symlinkTar : List TarItem :=
  [.entry { Name := "link".toList, Typeflag := TypeSymlink, Mode := 0o777 } [] none]

/-- A runtime state with a stopped container `dapr_placement` and a running
container `dapr_placement_foo`. -/
def twoPlacements : List Container :=
  [{ name := "dapr_placement".toList, running := false },
   { name := "dapr_placement_foo".toList, running := true }]

/-- A runtime state with the single, stopped, container `dapr_placement`. -/
def onePlacement : List Container :=
  [{ name := "dapr_placement".toList, running := false }]

/-- A filesystem with the directory `/h`, in which nothing is at
`/h/config.yaml` and the lookup of that path is denied. -/
def deniedFS : FS :=
  { fsOfDirs ["/".toList, "/h".toList] with
    denied := fun q => q = "/h/config.yaml".toList }

/-- A filesystem in which `/h/f` is a regular file, so that nothing can be at
`/h/f/config.yaml`. -/
def fileOnTheWayFS : FS :=
  (fsOfDirs ["/".toList, "/h".toList]).set "/h/f".toList (.file 0o644 [9])

/-! # Theorems -/

/-! ## Paths -/

/-- The function `removeFirst` removes the occurrence of `pat` that follows
`a` when no occurrence starts inside `a`. -/
theorem removeFirst_append (pat : Str) (hp : pat ≠ []) (a b : Str)
    (h : ¬ pat <:+: a ++ pat.dropLast) : removeFirst pat (a ++ pat ++ b) = a ++ b := by
  induction a with
  | nil =>
    cases pat with
    | nil => exact absurd rfl hp
    | cons c cs =>
      have hpre : (c :: cs).isPrefixOf (c :: cs ++ b) = true :=
        List.isPrefixOf_iff_prefix.mpr (List.prefix_append _ _)
      simp only [List.nil_append]
      show removeFirst (c :: cs) (c :: (cs ++ b)) = b
      unfold removeFirst
      rw [show c :: (cs ++ b) = c :: cs ++ b from rfl, if_pos hpre]
      simp
  | cons x a ih =>
    have hlen : 0 < pat.length := List.length_pos.mpr hp
    have hnot : ¬ pat <+: (x :: a) ++ pat ++ b := by
      intro hpre
      apply h
      have h2 : (x :: a) ++ pat.dropLast <+: (x :: a) ++ pat ++ b := by
        rw [List.append_assoc]
        exact (List.prefix_append_right_inj _).mpr
          ((List.dropLast_prefix pat).trans (List.prefix_append _ _))
      have h3 : pat.length ≤ ((x :: a) ++ pat.dropLast).length := by
        simp only [List.length_append, List.length_cons, List.length_dropLast]
        omega
      exact (List.prefix_of_prefix_length_le hpre h2 h3).isInfix
    have hfalse : pat.isPrefixOf (x :: (a ++ pat ++ b)) = false := by
      rw [Bool.eq_false_iff]
      intro hc
      exact hnot (by simpa using List.isPrefixOf_iff_prefix.mp hc)
    have hrec : ¬ pat <:+: a ++ pat.dropLast := by
      intro hc
      apply h
      exact hc.trans (List.suffix_cons x _).isInfix
    show removeFirst pat (x :: (a ++ pat ++ b)) = x :: (a ++ b)
    unfold removeFirst
    rw [hfalse]
    simp only [Bool.false_eq_true, if_false]
    rw [ih hrec]

/-- The elements of a path are never none. -/
theorem splitSep_ne_nil (s : Str) : splitSep s ≠ [] := by
  cases s with
  | nil => simp [splitSep]
  | cons c cs =>
    unfold splitSep
    split
    · simp
    · split <;> simp

/-- A string without separator is its own single element. -/
theorem splitSep_of_not_mem (e : Str) (h : Separator ∉ e) : splitSep e = [e] := by
  induction e with
  | nil => rfl
  | cons c cs ih =>
    have hc : c ≠ Separator := fun hc => h (by simp [hc])
    have hcs : Separator ∉ cs := fun hm => h (List.mem_cons_of_mem _ hm)
    unfold splitSep
    rw [if_neg hc, ih hcs]

/-- The elements of two strings joined by a separator are the elements of
the first followed by the elements of the second. -/
theorem splitSep_append (a b : Str) :
    splitSep (a ++ Separator :: b) = splitSep a ++ splitSep b := by
  induction a with
  | nil => simp [splitSep]
  | cons c cs ih =>
    by_cases hc : c = Separator
    · simp only [List.cons_append]
      rw [splitSep, if_pos hc, ih, splitSep, if_pos hc]
      rfl
    · simp only [List.cons_append]
      rw [splitSep, if_neg hc, ih, splitSep, if_neg hc]
      cases hs : splitSep cs with
      | nil => exact absurd hs (splitSep_ne_nil cs)
      | cons h t => rfl

/-- The elements of a path written from separator-free elements are these
elements. -/
theorem splitSep_stringsJoin (es : List Str) (hne : es ≠ [])
    (h : ∀ e ∈ es, Separator ∉ e) : splitSep (stringsJoin [Separator] es) = es := by
  induction es with
  | nil => exact absurd rfl hne
  | cons e rest ih =>
    cases rest with
    | nil => simpa [stringsJoin] using splitSep_of_not_mem e (h e (by simp))
    | cons e2 rest2 =>
      have hrest : ∀ x ∈ e2 :: rest2, Separator ∉ x :=
        fun x hx => h x (List.mem_cons_of_mem _ hx)
      show splitSep (e ++ [Separator] ++ stringsJoin [Separator] (e2 :: rest2)) = _
      rw [List.append_assoc, List.singleton_append, splitSep_append,
        splitSep_of_not_mem e (h e (by simp)), ih (by simp) hrest]
      rfl

/-- Joining two lists of elements, none of them without element. -/
theorem stringsJoin_append (sep : Str) (xs ys : List Str) (hx : xs ≠ []) (hy : ys ≠ []) :
    stringsJoin sep (xs ++ ys) = stringsJoin sep xs ++ sep ++ stringsJoin sep ys := by
  induction xs with
  | nil => exact absurd rfl hx
  | cons x rest ih =>
    cases rest with
    | nil =>
      cases ys with
      | nil => exact absurd rfl hy
      | cons y ys2 => rfl
    | cons x2 rest2 =>
      show x ++ sep ++ stringsJoin sep (x2 :: rest2 ++ ys) = _
      rw [ih (by simp)]
      show _ = x ++ sep ++ stringsJoin sep (x2 :: rest2) ++ sep ++ stringsJoin sep ys
      simp only [List.append_assoc]

/-- The loop of `Clean` keeps every ordinary element and drops every empty
one. -/
theorem foldl_cleanStep (rooted : Bool) (es : List Str) (out : List Str)
    (h : ∀ e ∈ es, e = [] ∨ Ordinary e) :
    es.foldl (cleanStep rooted) out = (es.filter (fun e => e ≠ [])).reverse ++ out := by
  induction es generalizing out with
  | nil => rfl
  | cons e rest ih =>
    have hrest : ∀ x ∈ rest, x = [] ∨ Ordinary x := fun x hx => h x (List.mem_cons_of_mem _ hx)
    rw [List.foldl_cons, ih _ hrest]
    rcases h e (by simp) with he | he
    · subst he
      simp [cleanStep]
    · obtain ⟨h1, h2, h3, _⟩ := he
      simp [cleanStep, h1, h2, h3]

/-- Cleaning a rooted path whose elements are ordinary or empty keeps the
ordinary elements. -/
theorem Clean_rooted (body : Str) (h : ∀ e ∈ splitSep body, e = [] ∨ Ordinary e) :
    Clean (Separator :: body)
      = render true ((splitSep body).filter (fun e => e ≠ [])) := by
  have hs : splitSep (Separator :: body) = [] :: splitSep body := by
    rw [splitSep, if_pos rfl]
  have hall : ∀ e ∈ splitSep (Separator :: body), e = [] ∨ Ordinary e := by
    intro e he
    rw [hs] at he
    rcases List.mem_cons.mp he with h0 | h1
    · exact Or.inl h0
    · exact h e h1
  unfold Clean
  simp only [decide_True, if_true]
  rw [foldl_cleanStep true _ [] hall, hs]
  simp [render]

/-- Dropping the empty elements keeps a list of ordinary elements as it is. -/
theorem filter_ordinary (es : List Str) (h : ∀ e ∈ es, Ordinary e) :
    es.filter (fun e => e ≠ []) = es := by
  apply List.filter_eq_self.mpr
  intro e he
  simpa using (h e he).1

/-- The elements of a path written from ordinary elements, the empty ones
dropped. -/
theorem splitSep_stringsJoin_filter (es : List Str) (h : ∀ e ∈ es, Ordinary e) :
    (splitSep (stringsJoin [Separator] es)).filter (fun e => e ≠ []) = es
    ∧ ∀ e ∈ splitSep (stringsJoin [Separator] es), e = [] ∨ Ordinary e := by
  cases es with
  | nil => simp [stringsJoin, splitSep]
  | cons x xs =>
    rw [splitSep_stringsJoin (x :: xs) (by simp) (fun e he => (h e he).2.2.2)]
    exact ⟨filter_ordinary _ h, fun e he => Or.inr (h e he)⟩

/-- A path written from ordinary elements is not empty. -/
theorem stringsJoin_ne_nil (es : List Str) (hne : es ≠ []) (h : ∀ e ∈ es, Ordinary e) :
    stringsJoin [Separator] es ≠ [] := by
  cases es with
  | nil => exact absurd rfl hne
  | cons x xs =>
    have hx : x ≠ [] := (h x (by simp)).1
    cases xs with
    | nil => simpa [stringsJoin] using hx
    | cons y ys => simp [stringsJoin, hx]

/-- A rooted path written from ordinary elements is clean. -/
theorem Clean_render (ds : List Str) (h : ∀ e ∈ ds, Ordinary e) :
    Clean (render true ds) = render true ds := by
  have hs := splitSep_stringsJoin_filter ds h
  show Clean (Separator :: stringsJoin [Separator] ds) = _
  rw [Clean_rooted _ hs.2, hs.1]

/-- Joining a rooted path and a relative path, both written from ordinary
elements, gives the rooted path of all the elements. -/
theorem Join_render (ds ns : List Str) (hd : ∀ e ∈ ds, Ordinary e) (hn : ∀ e ∈ ns, Ordinary e) :
    Join (render true ds) (stringsJoin [Separator] ns) = render true (ds ++ ns) := by
  have h1 := splitSep_stringsJoin_filter ds hd
  have h2 := splitSep_stringsJoin_filter ns hn
  have hne : render true ds ≠ [] := by simp [render]
  unfold Join
  rw [if_pos hne]
  show Clean (Separator :: stringsJoin [Separator] ds ++ [Separator] ++ stringsJoin [Separator] ns) = _
  rw [List.cons_append, List.cons_append, List.append_assoc, List.singleton_append,
    Clean_rooted, splitSep_append, List.filter_append, h1.1, h2.1]
  rw [splitSep_append]
  intro e he
  rcases List.mem_append.mp he with h | h
  · exact h1.2 e h
  · exact h2.2 e h

/-- The value of `removePath` for a platform tag that is an ordinary element. -/
theorem removePath_eq (osarch : Str) (ho : Ordinary osarch) :
    removePath osarch = "release".toList ++ Separator :: osarch := by
  have hs : splitSep ("release".toList ++ Separator :: osarch) = ["release".toList, osarch] := by
    rw [splitSep_append, splitSep_of_not_mem _ (by decide), splitSep_of_not_mem _ ho.2.2.2]
    rfl
  have hr : Ordinary "release".toList := by decide
  have hall : ∀ e ∈ ["release".toList, osarch], e = [] ∨ Ordinary e := by
    intro e he
    rcases List.mem_cons.mp he with h | h
    · exact Or.inr (h ▸ hr)
    · exact Or.inr ((List.mem_singleton.mp h) ▸ ho)
  have hf : ["release".toList, osarch].filter (fun e => e ≠ []) = ["release".toList, osarch] :=
    filter_ordinary _ (fun e he => by
      rcases List.mem_cons.mp he with h | h
      · exact h ▸ hr
      · exact (List.mem_singleton.mp h) ▸ ho)
  unfold removePath Join
  rw [if_pos (by decide)]
  show Clean ('r' :: ("elease".toList ++ [Separator] ++ osarch)) = _
  unfold Clean
  simp only
  have hs2 : splitSep ('r' :: ("elease".toList ++ [Separator] ++ osarch))
      = ["release".toList, osarch] := by
    rw [← hs]; rfl
  have hd : decide ('r' = Separator) = false := by decide
  rw [hs2, hd, foldl_cleanStep false _ [] hall, hf]
  simp [stringsJoin, Separator]

/-- A rooted path of ordinary elements, followed by further elements, is the
path of the first elements with its separator followed by the path of the
others. -/
theorem render_append (ds ns : List Str) (hd : ∀ e ∈ ds, Ordinary e) (hn : ns ≠ []) :
    render true (ds ++ ns) = withSeparator (render true ds) ++ stringsJoin [Separator] ns := by
  cases ds with
  | nil => simp [render, withSeparator, stringsJoin]
  | cons d rest =>
    have hne : stringsJoin [Separator] (d :: rest) ≠ [] := stringsJoin_ne_nil _ (by simp) hd
    have hw : withSeparator (render true (d :: rest)) = render true (d :: rest) ++ [Separator] := by
      unfold withSeparator
      rw [if_neg]
      simpa [render] using hne
    rw [hw]
    show Separator :: stringsJoin [Separator] (d :: rest ++ ns) = _
    rw [stringsJoin_append _ _ _ (by simp) hn]
    simp [render]

/-- The path that both extractors compute for the entry
`release/<platform>/<rest>`: the destination with its separator, a second
separator, and `<rest>`. -/
theorem rewritten_path (osarch : Str) (ds rs : List Str) (ho : Ordinary osarch)
    (hds : ∀ e ∈ ds, Ordinary e) (hrs : ∀ e ∈ rs, Ordinary e) (hne : rs ≠ [])
    (hfirst : ¬ removePath osarch
      <:+: withSeparator (render true ds) ++ (removePath osarch).dropLast) :
    removeFirst (removePath osarch) (Join (render true ds)
        ("release".toList ++ Separator :: osarch ++ Separator :: stringsJoin [Separator] rs))
      = withSeparator (render true ds) ++ Separator :: stringsJoin [Separator] rs := by
  have hrp := removePath_eq osarch ho
  have hname : "release".toList ++ Separator :: osarch ++ Separator :: stringsJoin [Separator] rs
      = stringsJoin [Separator] ("release".toList :: osarch :: rs) := by
    cases rs with
    | nil => exact absurd rfl hne
    | cons r rest => simp [stringsJoin]
  have hall : ∀ e ∈ "release".toList :: osarch :: rs, Ordinary e := by
    intro e he
    rcases List.mem_cons.mp he with h | h
    · exact h ▸ (by decide : Ordinary "release".toList)
    · rcases List.mem_cons.mp h with h | h
      · exact h ▸ ho
      · exact hrs e h
  have hjoin : stringsJoin [Separator] ("release".toList :: osarch :: rs)
      = removePath osarch ++ Separator :: stringsJoin [Separator] rs := by
    rw [hrp, ← hname]
  rw [hname, Join_render ds _ hds hall, render_append ds _ hds (by simp), hjoin,
    ← List.append_assoc]
  have hp : removePath osarch ≠ [] := by rw [hrp]; simp
  exact removeFirst_append (removePath osarch) hp _ _ hfirst

/-- Cleaning the path computed for the entry gives the destination joined to
`<rest>`. -/
theorem Clean_rewritten (ds rs : List Str) (hds : ∀ e ∈ ds, Ordinary e)
    (hrs : ∀ e ∈ rs, Ordinary e) :
    Clean (withSeparator (render true ds) ++ Separator :: stringsJoin [Separator] rs)
      = Join (render true ds) (stringsJoin [Separator] rs) := by
  have h1 := splitSep_stringsJoin_filter ds hds
  have h2 := splitSep_stringsJoin_filter rs hrs
  rw [Join_render ds rs hds hrs]
  have key : ∀ body : Str,
      (splitSep body).filter (fun e => e ≠ []) = ds →
      (∀ e ∈ splitSep body, e = [] ∨ Ordinary e) →
      Clean (Separator :: (body ++ Separator :: stringsJoin [Separator] rs))
        = render true (ds ++ rs) := by
    intro body hb1 hb2
    rw [Clean_rooted, splitSep_append, List.filter_append, hb1, h2.1]
    rw [splitSep_append]
    intro e he
    rcases List.mem_append.mp he with h | h
    · exact hb2 e h
    · exact h2.2 e h
  cases ds with
  | nil =>
    have := key [] (by simp [splitSep]) (by simp [splitSep])
    simpa [render, withSeparator, stringsJoin] using this
  | cons d rest =>
    have hne : stringsJoin [Separator] (d :: rest) ≠ [] := stringsJoin_ne_nil _ (by simp) hds
    have hw : withSeparator (render true (d :: rest)) = render true (d :: rest) ++ [Separator] := by
      unfold withSeparator
      rw [if_neg]
      simpa [render] using hne
    rw [hw]
    have := key (stringsJoin [Separator] (d :: rest) ++ [Separator])
      (by
        rw [splitSep_append, List.filter_append, h1.1]
        simp [splitSep])
      (by
        rw [splitSep_append]
        intro e he
        rcases List.mem_append.mp he with h | h
        · exact h1.2 e h
        · left; simpa [splitSep] using h)
    simpa [render] using this

/-- The guard of `unzip` accepts the path computed for the entry. -/
theorem guard_accepts_rewritten (ds rs : List Str) (hds : ∀ e ∈ ds, Ordinary e) :
    HasPrefix (withSeparator (render true ds) ++ Separator :: stringsJoin [Separator] rs)
      (Clean (render true ds) ++ [Separator]) = true := by
  rw [Clean_render ds hds]
  unfold HasPrefix
  rw [List.isPrefixOf_iff_prefix]
  cases ds with
  | nil => simp [render, withSeparator, stringsJoin]
  | cons d rest =>
    have hne : stringsJoin [Separator] (d :: rest) ≠ [] := stringsJoin_ne_nil _ (by simp) hds
    have hw : withSeparator (render true (d :: rest)) = render true (d :: rest) ++ [Separator] := by
      unfold withSeparator
      rw [if_neg]
      simpa [render] using hne
    rw [hw]
    exact List.prefix_append _ _

/-! ## Filesystem -/

/-- When something is at the resolved path, `Stat` does not report that the
path does not exist. -/
theorem Stat_not_IsNotExist_of_node (fs : FS) (path : Str) (n : Node)
    (h : fs.node (Clean path) = some n) : IsNotExist (Stat fs path) = false := by
  unfold Stat
  simp only [h]
  split
  · rfl
  · split <;> rfl

/-- When nothing is at the resolved path and opening it for writing succeeds,
`Stat` reports that the path does not exist. -/
theorem Stat_IsNotExist_of_open (fs : FS) (path : Str) (perm : Nat)
    (h : fs.node (Clean path) = none) (ho : (OpenFile path perm fs).1 = none) :
    IsNotExist (Stat fs path) = true := by
  unfold OpenFile at ho
  unfold Stat
  simp only [h] at ho ⊢
  by_cases hd : fs.denied (Clean path) = true
  · simp [hd] at ho
  · by_cases hb : blocked fs (Clean path) = true
    · simp [hd, hb] at ho
    · simp [hd, hb, IsNotExist]

/-- Opening a path changes nothing at the other resolved paths. -/
theorem OpenFile_frame (fs : FS) (path : Str) (perm : Nat) (q : Str) (hq : q ≠ Clean path) :
    (OpenFile path perm fs).2.node q = fs.node q := by
  unfold OpenFile
  simp only
  repeat' split
  all_goals simp [FS.set, FS.record, hq]

/-- Writing to an open file changes nothing at the other resolved paths. -/
theorem writeOpen_frame (fs : FS) (path : Str) (data : Bytes) (q : Str) (hq : q ≠ Clean path) :
    (writeOpen path data fs).node q = fs.node q := by
  unfold writeOpen
  simp only
  split <;> simp [FS.set, FS.record, hq]

/-- A successful `OpenFile` on a path where nothing was creates an empty
regular file there. -/
theorem OpenFile_creates (fs : FS) (path : Str) (perm : Nat)
    (h : fs.node (Clean path) = none) (ho : (OpenFile path perm fs).1 = none) :
    OpenFile path perm fs
      = (none, (fs.record (.openFile path perm)).set (Clean path)
          (.file (syscallMode perm) [])) := by
  unfold OpenFile at ho ⊢
  simp only [h] at ho ⊢
  by_cases hd : fs.denied (Clean path) = true
  · simp [hd] at ho
  · by_cases hb : blocked fs (Clean path) = true
    · simp [hd, hb] at ho
    · simp only [hd, hb, if_false, Bool.false_eq_true] at ho ⊢
      cases hp : fs.node (Dir (Clean path)) with
      | none => simp [hp] at ho
      | some n =>
        cases n with
        | file m d => simp [hp] at ho
        | dir m =>
          by_cases hr : fs.readOnly (Clean path) = true
          · simp [hp, hr] at ho
          · simp [hr]

/-- A successful `WriteFile` starts with a successful `OpenFile`. -/
theorem OpenFile_of_WriteFile (fs : FS) (path : Str) (b : Bytes) (perm : Nat)
    (hw : (WriteFile path b perm fs).1 = none) : (OpenFile path perm fs).1 = none := by
  unfold WriteFile at hw
  cases hr : OpenFile path perm fs with
  | mk e fs1 =>
    cases e with
    | none => rfl
    | some e => simp [hr] at hw

/-- A successful `WriteFile` on a path where nothing was leaves a regular file
with exactly the bytes written. -/
theorem WriteFile_creates (fs : FS) (path : Str) (b : Bytes) (perm : Nat)
    (h : fs.node (Clean path) = none) (hw : (WriteFile path b perm fs).1 = none) :
    (WriteFile path b perm fs).2.node (Clean path) = some (.file (syscallMode perm) b) := by
  have hc := OpenFile_creates fs path perm h (OpenFile_of_WriteFile fs path b perm hw)
  simp [WriteFile, hc, writeOpen, FS.set, FS.record]

/-- The function `WriteFile` changes nothing at the other resolved paths. -/
theorem WriteFile_frame (fs : FS) (path : Str) (b : Bytes) (perm : Nat) (q : Str)
    (hq : q ≠ Clean path) : (WriteFile path b perm fs).2.node q = fs.node q := by
  unfold WriteFile
  cases hr : OpenFile path perm fs with
  | mk e fs1 =>
    have hf := OpenFile_frame fs path perm q hq
    rw [hr] at hf
    cases e with
    | none => simp only; rw [writeOpen_frame fs1 path b q hq]; exact hf
    | some e => exact hf

/-- The function `OpenFile` records one call, on the path it is given. -/
theorem OpenFile_calls (fs : FS) (path : Str) (perm : Nat) :
    (OpenFile path perm fs).2.calls = fs.calls ++ [.openFile path perm] := by
  unfold OpenFile
  simp only
  repeat' split
  all_goals rfl

/-- The function `writeOpen` records one call, on the path it is given. -/
theorem writeOpen_calls (fs : FS) (path : Str) (data : Bytes) :
    (writeOpen path data fs).calls = fs.calls ++ [.write path data] := by
  unfold writeOpen
  simp only
  split <;> rfl

/-- Creating one directory records no call. -/
theorem mkdirOne_calls (perm : Nat) (acc : Option Errno × FS) (a : Str) :
    (mkdirOne perm acc a).2.calls = acc.2.calls := by
  unfold mkdirOne
  repeat' split
  all_goals rfl

/-- Creating the directories of a chain records no call. -/
theorem foldl_mkdirOne_calls (perm : Nat) (l : List Str) (acc : Option Errno × FS) :
    (l.foldl (mkdirOne perm) acc).2.calls = acc.2.calls := by
  induction l generalizing acc with
  | nil => rfl
  | cons a rest ih => rw [List.foldl_cons, ih, mkdirOne_calls]

/-- The function `MkdirAll` records one call, on the path it is given. -/
theorem MkdirAll_calls (fs : FS) (path : Str) (perm : Nat) :
    (MkdirAll path perm fs).2.calls = fs.calls ++ [.mkdirAll path perm] := by
  unfold MkdirAll
  simp only
  split
  · rfl
  · have h := foldl_mkdirOne_calls perm (chain (Clean path))
      (none, fs.record (.mkdirAll path perm))
    split
    · next e fs1 heq => rw [heq] at h; exact h
    · next fs1 heq => rw [heq] at h; exact h

/-! ## Archive extractor: traversal guard -/

/-- C1, on the failing input: on `linux_amd64`, with destination `/d`, the
entry `.release/linux_amd64./x` is joined to `/d/.release/linux_amd64./x`, the
removal of `release/linux_amd64` leaves `/d/../x`, the guard of `unzip`
accepts it (it begins with `/d/`) and `unzip` returns it without error;
cleaned, the path is `/x`, which does not lie beneath `/d`, and the file `/x`
has been created. -/
theorem unzip_guard_accepts_escaping_path :
    (unzip "linux_amd64".toList (.ok slipArchive) "/d".toList
        (fsOfDirs ["/".toList, "/d".toList])).1 = (["/d/../x".toList], none)
    ∧ Clean "/d/../x".toList = "/x".toList
    ∧ HasPrefix (Clean "/d/../x".toList) (Clean "/d".toList ++ [Separator]) = false
    ∧ (unzip "linux_amd64".toList (.ok slipArchive) "/d".toList
        (fsOfDirs ["/".toList, "/d".toList])).2.node "/x".toList = some (.file 0o644 [1, 2])
    ∧ (fsOfDirs ["/".toList, "/d".toList]).node "/x".toList = none
    ∧ (unzip "linux_amd64".toList (.ok slipArchive) "/d".toList
        (fsOfDirs ["/".toList, "/d".toList])).2.calls
      = [.mkdirAll "/".toList ModePerm, .openFile "/d/../x".toList 0o644,
         .write "/d/../x".toList [1, 2]] := by
  decide

/-- C2, on the failing input: with destination `/home/u/.dapr/bin`, the tar
entry `../../../../etc/passwd` makes `extractTarGz` open and write
`/etc/passwd`, outside the destination, and return no error. -/
theorem extractTarGz_writes_outside_destination :
    (extractTarGz "linux_amd64".toList (.ok passwdArchive) "/home/u/.dapr/bin".toList homeFS).1
      = none
    ∧ (extractTarGz "linux_amd64".toList (.ok passwdArchive) "/home/u/.dapr/bin".toList
        homeFS).2.calls
      = [.openFile "/etc/passwd".toList 0o644, .write "/etc/passwd".toList [1, 2]]
    ∧ (extractTarGz "linux_amd64".toList (.ok passwdArchive) "/home/u/.dapr/bin".toList
        homeFS).2.node "/etc/passwd".toList = some (.file 0o644 [1, 2])
    ∧ homeFS.node "/etc/passwd".toList = none
    ∧ HasPrefix "/etc/passwd".toList
        (Clean "/home/u/.dapr/bin".toList ++ [Separator]) = false := by
  decide

/-! ## Archive extractor: prefix rewrite -/

/-- Every call that the tar extractor records for an entry is on the path
computed for the entry: the name joined to the destination, less the first
occurrence of `removePath`; a call is recorded for a directory and for a
regular file. -/
theorem extractTarEntry_calls (osarch base : Str) (header : TarHeader) (data : Bytes)
    (readErr : Option GoError) (fs : FS) :
    ∃ news, (extractTarEntry osarch base header data readErr fs).2.calls = fs.calls ++ news
      ∧ (∀ c ∈ news, c.path = removeFirst (removePath osarch) (Join base header.Name))
      ∧ (header.Typeflag = TypeDir ∨ header.Typeflag = TypeReg → news ≠ []) := by
  unfold extractTarEntry
  simp only
  generalize removeFirst (removePath osarch) (Join base header.Name) = P
  by_cases hd : header.Typeflag = TypeDir
  · rw [if_pos hd]
    exact ⟨[.mkdirAll P 0o755], MkdirAll_calls _ _ _, by simp [FsCall.path], by simp⟩
  · rw [if_neg hd]
    by_cases hr : header.Typeflag = TypeReg
    · rw [if_pos hr]
      have ho := OpenFile_calls fs P (header.Mode &&& ModePerm)
      cases hop : OpenFile P (header.Mode &&& ModePerm) fs with
      | mk e fs1 =>
        rw [hop] at ho
        cases e with
        | some err =>
          exact ⟨[.openFile P (header.Mode &&& ModePerm)], ho, by simp [FsCall.path], by simp⟩
        | none =>
          refine ⟨[.openFile P (header.Mode &&& ModePerm), .write P data], ?_,
            by simp [FsCall.path], by simp⟩
          simp only at ho
          cases readErr <;> simp [writeOpen_calls, ho]
    · rw [if_neg hr]
      exact ⟨[], by simp, by simp, by simp [hd, hr]⟩

/-- When the guard of `unzip` accepts the path computed for an entry, that
path is the one appended to the list of names, and every call recorded for the
entry is on that path, or creates its parent directory. -/
theorem unzipEntry_accepted (osarch dest : Str) (f : ZipFile) (filenames : List Str) (fs : FS)
    (hg : HasPrefix (removeFirst (removePath osarch) (Join dest f.Name))
      (Clean dest ++ [Separator]) = true) :
    (unzipEntry osarch dest f filenames fs).2.1
        = filenames ++ [removeFirst (removePath osarch) (Join dest f.Name)]
    ∧ ∃ news, (unzipEntry osarch dest f filenames fs).2.2.calls = fs.calls ++ news
      ∧ news ≠ []
      ∧ ∀ c ∈ news, c.path = removeFirst (removePath osarch) (Join dest f.Name)
          ∨ c = .mkdirAll (Dir (removeFirst (removePath osarch) (Join dest f.Name))) ModePerm := by
  unfold unzipEntry
  simp only [hg, Bool.not_true, Bool.false_eq_true, if_false]
  generalize removeFirst (removePath osarch) (Join dest f.Name) = P
  constructor
  · repeat' split
    all_goals rfl
  · by_cases hdir : IsDir f.Mode = true
    · simp only [hdir, if_true]
      exact ⟨[.mkdirAll P ModePerm], MkdirAll_calls _ _ _, by simp, by simp [FsCall.path]⟩
    · simp only [hdir, Bool.false_eq_true, if_false]
      have hm := MkdirAll_calls fs (Dir P) ModePerm
      rcases hmk : MkdirAll (Dir P) ModePerm fs with ⟨e, fs1⟩
      rw [hmk] at hm
      simp only at hm
      cases e with
      | some err => exact ⟨[.mkdirAll (Dir P) ModePerm], hm, by simp, by simp⟩
      | none =>
        simp only
        have ho := OpenFile_calls fs1 P f.Mode
        rcases hop : OpenFile P f.Mode fs1 with ⟨e2, fs2⟩
        rw [hop] at ho
        simp only at ho
        cases e2 with
        | some err =>
          refine ⟨[.mkdirAll (Dir P) ModePerm, .openFile P f.Mode], ?_, by simp, ?_⟩
          · simp [ho, hm]
          · simp [FsCall.path]
        | none =>
          simp only
          cases hoe : f.openErr with
          | some err =>
            refine ⟨[.mkdirAll (Dir P) ModePerm, .openFile P f.Mode], ?_, by simp, ?_⟩
            · simp [ho, hm]
            · simp [FsCall.path]
          | none =>
            refine ⟨[.mkdirAll (Dir P) ModePerm, .openFile P f.Mode, .write P f.data], ?_,
              by simp, ?_⟩
            · cases f.readErr <;> simp [writeOpen_calls, ho, hm]
            · simp [FsCall.path]

/-- C3, on the failing input: on `linux_amd64`, with destination
`/release/linux_amd64/out` and the entry `release/linux_amd64/bin/tool`, the
claim gives the path `/release/linux_amd64/out/bin/tool`.  The removal is made
in the joined path, where the first occurrence of `release/linux_amd64` lies in
the destination: the path computed is `//out/release/linux_amd64/bin/tool`.
The function `extractTarGz` returns no error, writes the file
`/out/release/linux_amd64/bin/tool`, which is not beneath the destination, and
leaves nothing at `/release/linux_amd64/out/bin/tool`; the function `unzip`
rejects the entry as an illegal file path and makes no call on the
filesystem. -/
theorem prefix_rewrite_alters_destination :
    Join "/release/linux_amd64/out".toList "bin/tool".toList
      = "/release/linux_amd64/out/bin/tool".toList
    ∧ (extractTarGz "linux_amd64".toList (.ok toolArchive) "/release/linux_amd64/out".toList
        nestedFS).1 = none
    ∧ (extractTarGz "linux_amd64".toList (.ok toolArchive) "/release/linux_amd64/out".toList
        nestedFS).2.calls
      = [.openFile "//out/release/linux_amd64/bin/tool".toList 0o755,
         .write "//out/release/linux_amd64/bin/tool".toList [1, 2]]
    ∧ (extractTarGz "linux_amd64".toList (.ok toolArchive) "/release/linux_amd64/out".toList
        nestedFS).2.node "/out/release/linux_amd64/bin/tool".toList = some (.file 0o755 [1, 2])
    ∧ HasPrefix (Clean "//out/release/linux_amd64/bin/tool".toList)
        (Clean "/release/linux_amd64/out".toList ++ [Separator]) = false
    ∧ (extractTarGz "linux_amd64".toList (.ok toolArchive) "/release/linux_amd64/out".toList
        nestedFS).2.node "/release/linux_amd64/out/bin/tool".toList = none
    ∧ (unzip "linux_amd64".toList (.ok toolZip) "/release/linux_amd64/out".toList nestedFS).1
      = ([], some (.errorString
          "//out/release/linux_amd64/bin/tool: illegal file path".toList))
    ∧ (unzip "linux_amd64".toList (.ok toolZip) "/release/linux_amd64/out".toList
        nestedFS).2.calls = [] := by
  decide

/-- With a destination that does not contain `release/linux_amd64`, both
extractors put the entry `release/linux_amd64/bin/tool` at
`join(dest, rest)`: with destination `/d`, the file `/d/bin/tool` is written,
and `unzip` creates the directory `/d/bin` on the way. -/
theorem prefix_rewrite_ordinary_destination :
    Join "/d".toList "bin/tool".toList = "/d/bin/tool".toList
    ∧ (extractTarGz "linux_amd64".toList (.ok toolArchive) "/d".toList
        (fsOfDirs ["/".toList, "/d".toList, "/d/bin".toList])).1 = none
    ∧ (extractTarGz "linux_amd64".toList (.ok toolArchive) "/d".toList
        (fsOfDirs ["/".toList, "/d".toList, "/d/bin".toList])).2.node "/d/bin/tool".toList
      = some (.file 0o755 [1, 2])
    ∧ (unzip "linux_amd64".toList (.ok toolZip) "/d".toList
        (fsOfDirs ["/".toList, "/d".toList])).1.2 = none
    ∧ (unzip "linux_amd64".toList (.ok toolZip) "/d".toList
        (fsOfDirs ["/".toList, "/d".toList])).2.node "/d/bin/tool".toList
      = some (.file 0o755 [1, 2])
    ∧ (unzip "linux_amd64".toList (.ok toolZip) "/d".toList
        (fsOfDirs ["/".toList, "/d".toList])).2.node "/d/bin".toList
      = some (.dir 0o777) := by
  decide

/-- The prefix rewrite for a destination in which the removal does not hit.
Let the destination be a cleaned absolute path (written from the ordinary
elements `ds`), the platform tag an ordinary element, and the entry be named
`release/<platform>/<rest>` with `<rest>` written from the ordinary elements
`rs`; let no occurrence of `release/<platform>` start inside the destination
part of the joined path.  Then the path that both extractors compute is the
destination with its separator, a second separator and `<rest>`; cleaned, it
is `join(dest, rest)`.  Every call that `extractTarGz` records for the entry
is on that path, and there is one for a directory and for a regular file;
`unzip` accepts the path, appends it to the list of names, and every call it
records for the entry is on that path or creates its parent directory. -/
theorem prefix_rewrite (osarch : Str) (ds rs : List Str) (ho : Ordinary osarch)
    (hds : ∀ e ∈ ds, Ordinary e) (hrs : ∀ e ∈ rs, Ordinary e) (hne : rs ≠ [])
    (hfirst : ¬ removePath osarch
      <:+: withSeparator (render true ds) ++ (removePath osarch).dropLast) :
    Clean (withSeparator (render true ds) ++ Separator :: stringsJoin [Separator] rs)
      = Join (render true ds) (stringsJoin [Separator] rs)
    ∧ (∀ (tf : Char) (mode : Nat) (data : Bytes) (readErr : Option GoError) (fs : FS),
        ∃ news,
          (extractTarEntry osarch (render true ds)
            { Name := "release".toList ++ Separator :: osarch
                ++ Separator :: stringsJoin [Separator] rs,
              Typeflag := tf, Mode := mode } data readErr fs).2.calls = fs.calls ++ news
          ∧ (∀ c ∈ news, c.path
              = withSeparator (render true ds) ++ Separator :: stringsJoin [Separator] rs)
          ∧ (tf = TypeDir ∨ tf = TypeReg → news ≠ []))
    ∧ (∀ (f : ZipFile) (filenames : List Str) (fs : FS),
        f.Name = "release".toList ++ Separator :: osarch
          ++ Separator :: stringsJoin [Separator] rs →
        (unzipEntry osarch (render true ds) f filenames fs).2.1
          = filenames
            ++ [withSeparator (render true ds) ++ Separator :: stringsJoin [Separator] rs]
        ∧ ∃ news,
          (unzipEntry osarch (render true ds) f filenames fs).2.2.calls = fs.calls ++ news
          ∧ news ≠ []
          ∧ ∀ c ∈ news,
              c.path = withSeparator (render true ds) ++ Separator :: stringsJoin [Separator] rs
              ∨ c = .mkdirAll (Dir (withSeparator (render true ds)
                  ++ Separator :: stringsJoin [Separator] rs)) ModePerm) := by
  have hp := rewritten_path osarch ds rs ho hds hrs hne hfirst
  refine ⟨Clean_rewritten ds rs hds hrs, ?_, ?_⟩
  · intro tf mode data readErr fs
    have h := extractTarEntry_calls osarch (render true ds)
      { Name := "release".toList ++ Separator :: osarch
          ++ Separator :: stringsJoin [Separator] rs,
        Typeflag := tf, Mode := mode } data readErr fs
    simp only [hp] at h
    exact h
  · intro f filenames fs hf
    have hg := guard_accepts_rewritten ds rs hds
    rw [← hp, ← hf] at hg
    have h := unzipEntry_accepted osarch (render true ds) f filenames fs hg
    rw [hf, hp] at h
    exact h

/-- The prefix rewrite at `linux_amd64`, destination `/d`, entry
`release/linux_amd64/bin/tool`: the path computed is `/d//bin/tool`, which
cleans to `/d/bin/tool`. -/
theorem prefix_rewrite_witness :
    Clean "/d//bin/tool".toList = Join "/d".toList "bin/tool".toList
    ∧ (unzipEntry "linux_amd64".toList "/d".toList
        { Name := "release/linux_amd64/bin/tool".toList, Mode := 0o755, openErr := none,
          data := [1, 2], readErr := none } []
        (fsOfDirs ["/".toList, "/d".toList])).2.1 = ["/d//bin/tool".toList] :=
  have h := prefix_rewrite "linux_amd64".toList ["d".toList] ["bin".toList, "tool".toList]
    (by decide) (by decide) (by decide) (by decide) (by decide)
  ⟨h.1, (h.2.2 ⟨"release/linux_amd64/bin/tool".toList, 0o755, none, [1, 2], none⟩ []
    (fsOfDirs ["/".toList, "/d".toList]) rfl).1⟩

/-! ## Archive extractor: entry types -/

/-- The tar extractor rejects every entry that is neither a directory nor a
regular file, and leaves the filesystem as it was. -/
theorem extractTarEntry_other_type (osarch base : Str) (header : TarHeader) (data : Bytes)
    (readErr : Option GoError) (fs : FS)
    (hd : header.Typeflag ≠ TypeDir) (hr : header.Typeflag ≠ TypeReg) :
    extractTarEntry osarch base header data readErr fs
      = (some (.errorString ("extractTarGz: uknown type: ".toList
          ++ Nat.toDigits 2 header.Typeflag.toNat ++ " in ".toList ++ header.Name)), fs) := by
  simp [extractTarEntry, hd, hr]

/-- The tar extractor on a symbolic link: extraction fails and no call is made
on the filesystem. -/
theorem extractTarGz_rejects_symlink :
    (extractTarGz "linux_amd64".toList (.ok symlinkTar) "/d".toList
        (fsOfDirs ["/".toList, "/d".toList])).1
      = some (.errorString "extractTarGz: uknown type: 110010 in link".toList)
    ∧ (extractTarGz "linux_amd64".toList (.ok symlinkTar) "/d".toList
        (fsOfDirs ["/".toList, "/d".toList])).2.calls = [] := by
  decide

/-- C10, on the failing input: `unzip` has no check of the entry type; a
symbolic link in a zip archive is written as a regular file that holds the
target of the link, and `unzip` returns no error. -/
theorem unzip_writes_symlink_as_file :
    IsDir (ModeSymlink ||| 0o777) = false
    ∧ (unzip "linux_amd64".toList (.ok symlinkArchive) "/d".toList
        (fsOfDirs ["/".toList, "/d".toList])).1 = (["/d/link".toList], none)
    ∧ (unzip "linux_amd64".toList (.ok symlinkArchive) "/d".toList
        (fsOfDirs ["/".toList, "/d".toList])).2.node "/d/link".toList
      = some (.file 0o777 [47, 101, 116, 99]) := by
  decide

/-! ## Config writer -/

/-- The result of `checkAndOverWriteFile` is that of `WriteFile` when `Stat`
reports that the path does not exist, and success without any change
otherwise. -/
theorem checkAndOverWriteFile_eq (fs : FS) (path : Str) (b : Bytes) :
    checkAndOverWriteFile path b fs
      = if IsNotExist (Stat fs path) then WriteFile path b 0o644 fs else (none, fs) := by
  unfold checkAndOverWriteFile
  simp only
  split
  · cases hr : WriteFile path b 0o644 fs with
    | mk e fs1 => cases e <;> rfl
  · rfl

/-- C4: `checkAndOverWriteFile` writes once.  If something is at the path
before the call, the call returns no error and the filesystem is the same
afterwards (so the bytes of the file are the same).  If nothing is at the path
and the write succeeds, the path holds a regular file with exactly the bytes
`b` afterwards.  In every case, what the other paths name is unchanged. -/
theorem checkAndOverWriteFile_write_once (fs : FS) (path : Str) (b : Bytes) :
    (∀ n, fs.node (Clean path) = some n →
      (checkAndOverWriteFile path b fs).1 = none
      ∧ (checkAndOverWriteFile path b fs).2.node = fs.node)
    ∧ (fs.node (Clean path) = none → (WriteFile path b 0o644 fs).1 = none →
      (checkAndOverWriteFile path b fs).1 = none
      ∧ (checkAndOverWriteFile path b fs).2.node (Clean path) = some (.file 0o644 b))
    ∧ (∀ q, q ≠ Clean path → (checkAndOverWriteFile path b fs).2.node q = fs.node q) := by
  rw [checkAndOverWriteFile_eq]
  refine ⟨?_, ?_, ?_⟩
  · intro n hn
    simp [Stat_not_IsNotExist_of_node fs path n hn]
  · intro hn hw
    rw [Stat_IsNotExist_of_open fs path 0o644 hn (OpenFile_of_WriteFile fs path b 0o644 hw)]
    refine ⟨by simpa using hw, ?_⟩
    have hc := WriteFile_creates fs path b 0o644 hn hw
    have hm : syscallMode 0o644 = 0o644 := by decide
    rw [hm] at hc
    simpa using hc
  · intro q hq
    split
    · exact WriteFile_frame fs path b 0o644 q hq
    · rfl

/-- C4 at a concrete input: an existing `/h/config.yaml` is left as it is, and
a missing one is created with the bytes given. -/
theorem checkAndOverWriteFile_write_once_witness :
    ((checkAndOverWriteFile "/h/config.yaml".toList [7]
        ((fsOfDirs ["/".toList, "/h".toList]).set "/h/config.yaml".toList (.file 0o600 [9]))).1
        = none
      ∧ (checkAndOverWriteFile "/h/config.yaml".toList [7]
        ((fsOfDirs ["/".toList, "/h".toList]).set "/h/config.yaml".toList
          (.file 0o600 [9]))).2.node
        = ((fsOfDirs ["/".toList, "/h".toList]).set "/h/config.yaml".toList
          (.file 0o600 [9])).node)
    ∧ ((checkAndOverWriteFile "/h/config.yaml".toList [7]
        (fsOfDirs ["/".toList, "/h".toList])).1 = none
      ∧ (checkAndOverWriteFile "/h/config.yaml".toList [7]
        (fsOfDirs ["/".toList, "/h".toList])).2.node "/h/config.yaml".toList
        = some (.file 0o644 [7])) :=
  ⟨(checkAndOverWriteFile_write_once _ "/h/config.yaml".toList [7]).1 (.file 0o600 [9])
      (by decide),
    (checkAndOverWriteFile_write_once (fsOfDirs ["/".toList, "/h".toList])
      "/h/config.yaml".toList [7]).2.1 (by decide) (by decide)⟩

/-! ## Container controller: commands issued -/

/-- Every call of `RunCmdAndWait` adds its command line, and nothing else, to
the commands issued. -/
theorem RunCmdAndWait_issued {σ : Type} (rt : Runtime σ) (name : Str) (args : List Str)
    (w : World σ) :
    (RunCmdAndWait rt name args w).2.issued = w.issued ++ [name :: args] := by
  unfold RunCmdAndWait
  simp only
  repeat' split
  all_goals rfl

/-- The existence query issues the listing command and nothing else. -/
theorem confirm_issued {σ : Type} (rt : Runtime σ) (containerName : Str) (w : World σ) :
    (confirmContainerIsRunningOrExists rt containerName false w).2.issued
      = w.issued ++ [psCommand containerName] := by
  have h := RunCmdAndWait_issued rt "docker".toList
    ["ps".toList, "--all".toList, "--filter".toList, "name=".toList ++ containerName,
      "--format".toList, "\x7b\x7b.Names\x7d\x7d".toList] w
  unfold confirmContainerIsRunningOrExists
  simp only [Bool.false_eq_true, if_false, List.cons_append, List.nil_append]
  repeat' split
  all_goals exact h

/-- The arguments of `runPlacementService` are the creation command of the
specification with the entry point `./placement`. -/
theorem placementArgs_spec (goos version network : Str) :
    placementArgs goos version network
      = specCreationArgs "dapr_placement".toList (some "./placement".toList)
          ((if goos = "windows".toList then "6050".toList else "50005".toList)
            ++ ":50005".toList)
          ("daprio/dapr:".toList ++ version) network := by
  have h1 : (Nat.repr 6050).data = ['6', '0', '5', '0'] := by decide
  have h2 : (Nat.repr 50005).data = ['5', '0', '0', '0', '5'] := by decide
  by_cases hn : network = [] <;> by_cases hg : goos = ['w', 'i', 'n', 'd', 'o', 'w', 's'] <;>
    simp [placementArgs, specCreationArgs, specEffectiveName, createContainerName,
      DaprPlacementContainerName, daprDockerImageName, hn, hg, h1, h2]

/-- The arguments of `runRedis` for a missing container are the creation
command of the specification. -/
theorem redisArgs_spec (network : Str) :
    redisArgs network false
      = specCreationArgs "dapr_redis".toList none "6379:6379".toList "redis".toList network := by
  by_cases hn : network = [] <;>
    simp [redisArgs, specCreationArgs, specEffectiveName, createContainerName,
      DaprRedisContainerName, hn]

/-- The arguments of `runZipkin` for a missing container are the creation
command of the specification. -/
theorem zipkinArgs_spec (network : Str) :
    zipkinArgs network false
      = specCreationArgs "dapr_zipkin".toList none "9411:9411".toList
          "openzipkin/zipkin".toList network := by
  by_cases hn : network = [] <;>
    simp [zipkinArgs, specCreationArgs, specEffectiveName, createContainerName,
      DaprZipkinContainerName, hn]

/-- The function `createContainerName` computes the effective container name
of the specification. -/
theorem createContainerName_spec (logical network : Str) :
    createContainerName logical network = specEffectiveName logical network := by
  by_cases hn : network = [] <;> simp [specEffectiveName, createContainerName, hn]

/-- C9: the arguments that the three functions build to create a container are
the creation command of the specification: `run`, `--name <name>`,
`--restart always`, `-d`, `--entrypoint ./placement` for placement only, then
the network override or the port mapping (`6379:6379` for redis, `9411:9411`
for zipkin, `50005:50005` for placement and `6050:50005` on Windows), then the
image; `<name>` is the effective container name. -/
theorem creation_command_as_specified (goos version network : Str) :
    placementArgs goos version network
      = specCreationArgs "dapr_placement".toList (some "./placement".toList)
          ((if goos = "windows".toList then "6050".toList else "50005".toList)
            ++ ":50005".toList)
          ("daprio/dapr:".toList ++ version) network
    ∧ redisArgs network false
      = specCreationArgs "dapr_redis".toList none "6379:6379".toList "redis".toList network
    ∧ zipkinArgs network false
      = specCreationArgs "dapr_zipkin".toList none "9411:9411".toList
          "openzipkin/zipkin".toList network
    ∧ (∀ logical : Str, createContainerName logical network = specEffectiveName logical network) :=
  ⟨placementArgs_spec goos version network, redisArgs_spec network, zipkinArgs_spec network,
    fun logical => createContainerName_spec logical network⟩

/-- C6: `runRedis` and `runZipkin` first query the existence of the container
of the effective name, which issues the listing command and nothing else.  When the query fails, the function returns an error in
the world that the query left (no further command).  When the query reports
that the container exists, the one command issued afterwards is
`docker start <name>`.  When it reports absence, the one command issued
afterwards is the creation command `docker run ...`. -/
theorem start_or_create {σ : Type} (rt : Runtime σ) (network : Str) (w : World σ) :
    (∀ name : Str, (confirmContainerIsRunningOrExists rt name false w).2.issued
      = w.issued ++ [psCommand name])
    ∧ (match confirmContainerIsRunningOrExists rt
        (createContainerName DaprRedisContainerName network) false w with
      | ((_, some e), w1) => runRedis rt network w = (some e, w1)
      | ((true, none), w1) =>
        (runRedis rt network w).2.issued = w1.issued ++ [["docker".toList, "start".toList,
          createContainerName DaprRedisContainerName network]]
      | ((false, none), w1) =>
        (runRedis rt network w).2.issued = w1.issued ++ ["docker".toList ::
          specCreationArgs "dapr_redis".toList none "6379:6379".toList "redis".toList network])
    ∧ (match confirmContainerIsRunningOrExists rt
        (createContainerName DaprZipkinContainerName network) false w with
      | ((_, some e), w1) => runZipkin rt network w = (some e, w1)
      | ((true, none), w1) =>
        (runZipkin rt network w).2.issued = w1.issued ++ [["docker".toList, "start".toList,
          createContainerName DaprZipkinContainerName network]]
      | ((false, none), w1) =>
        (runZipkin rt network w).2.issued = w1.issued ++ ["docker".toList ::
          specCreationArgs "dapr_zipkin".toList none "9411:9411".toList
            "openzipkin/zipkin".toList network]) := by
  refine ⟨fun name => confirm_issued rt name w, ?_, ?_⟩
  · rcases h : confirmContainerIsRunningOrExists rt
      (createContainerName DaprRedisContainerName network) false w with ⟨⟨ex, err⟩, w1⟩
    cases err with
    | some e => simp [runRedis, h]
    | none =>
      cases ex
      · simp only [runRedis, h, RunCmdAndWait_issued, redisArgs_spec]
      · simp only [runRedis, h, RunCmdAndWait_issued]
        simp [redisArgs]
  · rcases h : confirmContainerIsRunningOrExists rt
      (createContainerName DaprZipkinContainerName network) false w with ⟨⟨ex, err⟩, w1⟩
    cases err with
    | some e => simp [runZipkin, h]
    | none =>
      cases ex
      · simp only [runZipkin, h, RunCmdAndWait_issued, zipkinArgs_spec]
      · simp only [runZipkin, h, RunCmdAndWait_issued]
        simp [zipkinArgs]

/-! ## Container controller: classification of launch failures -/

/-- What `RunCmdAndWait` returns for a subprocess that exits with a non-zero
status: the text of its standard error when there is one, the exit error
otherwise. -/
theorem RunCmdAndWait_exit {σ : Type} (rt : Runtime σ) (name : Str) (args : List Str)
    (w : World σ) (code : Nat) (out errOut : Str) (st : σ)
    (hp : rt w.state args = ({ Proc.exit code errOut with stdout := out }, st)) :
    (RunCmdAndWait rt name args w).1
      = ([], some (if errOut ≠ [] then .errorString errOut else .exitError code)) := by
  unfold RunCmdAndWait
  rw [hp]
  cases errOut with
  | nil => simp [Proc.exit]
  | cons c cs => simp [Proc.exit]

/-- What the three functions report for the error of the launch. -/
theorem launchResult_exit (component : Str) (args : List Str) (code : Nat) (errOut : Str) :
    launchResult component args
        (some (if errOut ≠ [] then .errorString errOut else .exitError code))
      = some (if errOut ≠ [] then .errorString errOut
          else if code = 125 then
            .errorString ("docker ".toList ++ fmtArgs args
              ++ " failed with: exit status 125".toList)
          else if code = 127 then
            .errorString ("failed to launch ".toList ++ component
              ++ ". Make sure Docker is installed and running".toList)
          else .exitError code) := by
  have h125 : (Nat.repr 125).data = ['1', '2', '5'] := by decide
  by_cases he : errOut = []
  · by_cases h1 : code = 125
    · subst h1
      simp [he, launchResult, isContainerRunError, GoError.Error, h125]
    · by_cases h2 : code = 127
      · simp [he, h2, launchResult, isContainerRunError, parseDockerError]
      · simp [he, h1, h2, launchResult, isContainerRunError, parseDockerError]
  · simp [he, launchResult, isContainerRunError, parseDockerError]

/-- The report of a failed launch, for a launch with the arguments `args` in
the world `w1`. -/
theorem launch_report {σ : Type} (rt : Runtime σ) (component : Str) (args : List Str)
    (w1 : World σ) (code : Nat) (out errOut : Str) (st : σ)
    (hp : rt w1.state args = ({ Proc.exit code errOut with stdout := out }, st)) :
    launchResult component args (RunCmdAndWait rt "docker".toList args w1).1.2
      = some (failureReport component args code errOut) := by
  rw [RunCmdAndWait_exit rt "docker".toList args w1 code out errOut st hp]
  exact launchResult_exit component args code errOut

/-- C5, as stated, fails: when the subprocess that creates the container exits
with status 125 and prints nothing, `runPlacementService` returns
`docker [<arguments>] failed with: exit status 125`, not
`failed to launch placement service. Is it already running?`; when it exits
with status 1, `runZipkin` returns the exit error without the arguments; and
when it exits with status 127 after printing on its standard error, `runRedis`
returns the text printed, not the advice to install the runtime. -/
theorem launch_failure_misclassified :
    (runPlacementService (exitingRuntime 125) "linux".toList "1.0.0".toList [] ⟨(), []⟩).1
      = some (.errorString ("docker [run --name dapr_placement --restart always -d "
          ++ "--entrypoint ./placement -p 50005:50005 daprio/dapr:1.0.0] "
          ++ "failed with: exit status 125").toList)
    ∧ (runPlacementService (exitingRuntime 125) "linux".toList "1.0.0".toList [] ⟨(), []⟩).1
      ≠ some (.errorString
          "failed to launch placement service. Is it already running?".toList)
    ∧ (runZipkin (exitingRuntime 1) [] ⟨(), []⟩).1 = some (.exitError 1)
    ∧ (GoError.exitError 1).Error = "exit status 1".toList
    ∧ (runRedis (fun st args => if args.head? = some "ps".toList then (Proc.succeed [], st)
          else (Proc.exit 127 "docker: not found\n".toList, st)) [] ⟨(), []⟩).1
      = some (.errorString "docker: not found\n".toList) := by
  decide

/-- C5, amended.  For each of the three functions, when the existence query
succeeds and the subprocess that creates or starts the container exits with a
non-zero status (whatever it printed on its standard output): the error
returned is the text of its standard error when it printed one; otherwise status 125 yields `docker [<arguments>] failed with:
exit status 125`, status 127 yields `failed to launch <component>. Make sure
Docker is installed and running`, and any other status yields the exit error
as it is. -/
theorem launch_failure_classified {σ : Type} (rt : Runtime σ) (goos version network : Str)
    (w w1 : World σ) (ex : Bool) (code : Nat) (out errOut : Str) (st : σ) :
    (confirmContainerIsRunningOrExists rt
        (createContainerName DaprPlacementContainerName network) false w = ((false, none), w1) →
      rt w1.state (placementArgs goos version network)
        = ({ Proc.exit code errOut with stdout := out }, st) →
      (runPlacementService rt goos version network w).1
        = some (failureReport "placement service".toList (placementArgs goos version network)
            code errOut))
    ∧ (confirmContainerIsRunningOrExists rt
        (createContainerName DaprRedisContainerName network) false w = ((ex, none), w1) →
      rt w1.state (redisArgs network ex) = ({ Proc.exit code errOut with stdout := out }, st) →
      (runRedis rt network w).1
        = some (failureReport "Redis state store".toList (redisArgs network ex) code errOut))
    ∧ (confirmContainerIsRunningOrExists rt
        (createContainerName DaprZipkinContainerName network) false w = ((ex, none), w1) →
      rt w1.state (zipkinArgs network ex) = ({ Proc.exit code errOut with stdout := out }, st) →
      (runZipkin rt network w).1
        = some (failureReport "Zipkin tracing".toList (zipkinArgs network ex) code errOut)) := by
  refine ⟨?_, ?_, ?_⟩
  · intro hq hp
    have h := launch_report rt "placement service".toList _ w1 code out errOut st hp
    simp only [runPlacementService, hq]
    exact h
  · intro hq hp
    have h := launch_report rt "Redis state store".toList _ w1 code out errOut st hp
    simp only [runRedis, hq]
    exact h
  · intro hq hp
    have h := launch_report rt "Zipkin tracing".toList _ w1 code out errOut st hp
    simp only [runZipkin, hq]
    exact h

/-- The amended C5 at a runtime that is not installed: the subprocess that
creates the redis container exits with status 127 and prints nothing. -/
theorem launch_failure_classified_witness :
    (runRedis (exitingRuntime 127) [] ⟨(), []⟩).1
      = some (.errorString
          "failed to launch Redis state store. Make sure Docker is installed and running".toList) :=
  (launch_failure_classified (exitingRuntime 127) [] [] [] ⟨(), []⟩
    ⟨(), [psCommand "dapr_redis".toList]⟩ false 127 [] [] ()).2.1 rfl rfl

/-! ## Container controller: existence query and placement -/

/-- What the existence query returns for a successful listing: true when the
listing, less one newline at its end, is the name and is not empty; false
without error otherwise. -/
theorem confirm_of_listing (listing containerName : Str) (w : World Unit) :
    (confirmContainerIsRunningOrExists (listingRuntime listing) containerName false w).1
      = (decide (TrimSuffix listing "\n".toList ≠ []
          ∧ TrimSuffix listing "\n".toList = containerName), none) := by
  unfold confirmContainerIsRunningOrExists
  simp only [RunCmdAndWait, listingRuntime, Proc.succeed, Bool.false_eq_true, if_false]
  generalize TrimSuffix listing "\n".toList = t
  by_cases h1 : t = []
  · simp [h1]
  · by_cases h2 : t = containerName
    · subst h2
      simp [h1]
    · simp [h1, h2]

/-- C8, on the failing input: the listing `dapr_redis`, `dapr_redis_foo` has a
line equal to `dapr_redis`, and `confirmContainerIsRunningOrExists` returns
false for `dapr_redis`, without error. -/
theorem confirm_false_on_two_line_listing :
    "dapr_redis".toList ∈ listingLines "dapr_redis\ndapr_redis_foo\n".toList
    ∧ (confirmContainerIsRunningOrExists (listingRuntime "dapr_redis\ndapr_redis_foo\n".toList)
        "dapr_redis".toList false ⟨(), []⟩).1 = (false, none) := by
  decide

/-- When the existence query does not report the container, whether it
succeeds or fails, `removeDockerContainer` issues no further command and
returns no error. -/
theorem removeDockerContainer_not_reported {σ : Type} (rt : Runtime σ)
    (containerName network : Str) (w w1 : World σ) (err : Option GoError)
    (hq : confirmContainerIsRunningOrExists rt (createContainerName containerName network)
      false w = ((false, err), w1)) :
    removeDockerContainer rt containerName network w = (none, w1) := by
  simp [removeDockerContainer, hq]

/-- When the existence query reports the container, `removeDockerContainer`
issues `docker rm --force <name>` and nothing else. -/
theorem removeDockerContainer_reported {σ : Type} (rt : Runtime σ)
    (containerName network : Str) (w w1 : World σ) (err : Option GoError)
    (hq : confirmContainerIsRunningOrExists rt (createContainerName containerName network)
      false w = ((true, err), w1)) :
    (removeDockerContainer rt containerName network w).2.issued
      = w1.issued ++ [["docker".toList, "rm".toList, "--force".toList,
          createContainerName containerName network]] := by
  simp only [removeDockerContainer, hq, Bool.not_true, Bool.false_eq_true, if_false]
  exact RunCmdAndWait_issued rt _ _ w1

/-- When the existence query reports the container, `runPlacementService`
issues no further command and returns an error. -/
theorem runPlacementService_reported {σ : Type} (rt : Runtime σ) (goos version network : Str)
    (w w1 : World σ)
    (hq : confirmContainerIsRunningOrExists rt
      (createContainerName DaprPlacementContainerName network) false w = ((true, none), w1)) :
    runPlacementService rt goos version network w
      = (some (.errorString (createContainerName DaprPlacementContainerName network
          ++ " container exists or is running".toList)), w1) := by
  simp [runPlacementService, hq]

/-- With the single container `dapr_placement` in the runtime, the container
phase of `Install` removes it, creates it again, creates the two other
containers and succeeds. -/
theorem placement_recreated_when_alone :
    (installContainers docker "linux".toList "1.0.0".toList ⟨onePlacement, []⟩).1 = none
    ∧ (installContainers docker "linux".toList "1.0.0".toList ⟨onePlacement, []⟩).2.issued
      = [psCommand "dapr_placement".toList,
         ["docker", "rm", "--force", "dapr_placement"].map String.toList,
         psCommand "dapr_placement".toList,
         ["docker", "run", "--name", "dapr_placement", "--restart", "always", "-d",
            "--entrypoint", "./placement", "-p", "50005:50005", "daprio/dapr:1.0.0"].map
            String.toList,
         psCommand "dapr_redis".toList,
         ["docker", "run", "--name", "dapr_redis", "--restart", "always", "-d",
            "-p", "6379:6379", "redis"].map String.toList,
         psCommand "dapr_zipkin".toList,
         ["docker", "run", "--name", "dapr_zipkin", "--restart", "always", "-d",
            "-p", "9411:9411", "openzipkin/zipkin"].map String.toList] := by
  decide

/-- C7, on the failing input: with the containers `dapr_placement` and
`dapr_placement_foo` in the runtime, the container phase of `Install` issues
the listing twice and then the creation command for `dapr_placement`, while
that container still exists, and no `rm`; the runtime refuses the creation and
the phase fails. -/
theorem placement_not_removed_when_two_names_match :
    twoPlacements.any (fun c => c.name = DaprPlacementContainerName) = true
    ∧ (installContainers docker "linux".toList "1.0.0".toList ⟨twoPlacements, []⟩).2.issued
      = [["docker", "ps", "--all", "--filter", "name=dapr_placement", "--format",
            "\x7b\x7b.Names\x7d\x7d"].map String.toList,
         ["docker", "ps", "--all", "--filter", "name=dapr_placement", "--format",
            "\x7b\x7b.Names\x7d\x7d"].map String.toList,
         ["docker", "run", "--name", "dapr_placement", "--restart", "always", "-d",
            "--entrypoint", "./placement", "-p", "50005:50005", "daprio/dapr:1.0.0"].map
            String.toList]
    ∧ (installContainers docker "linux".toList "1.0.0".toList ⟨twoPlacements, []⟩).2.state
      = twoPlacements
    ∧ (installContainers docker "linux".toList "1.0.0".toList ⟨twoPlacements, []⟩).1.isSome := by
  decide

/-! ## Config writer: errors of the existence check -/

/-- When `Stat` fails with an error other than `ENOENT`, the function
`checkAndOverWriteFile` returns no error and leaves the filesystem as it
was. -/
theorem checkAndOverWriteFile_other_error (fs : FS) (path : Str) (b : Bytes) (e : Errno)
    (hs : Stat fs path = .error e) (he : e ≠ .ENOENT) :
    checkAndOverWriteFile path b fs = (none, fs) := by
  rw [checkAndOverWriteFile_eq, hs]
  cases e with
  | ENOENT => exact absurd rfl he
  | EACCES => rfl
  | ENOTDIR => rfl
  | EISDIR => rfl

/-- C11, on the failing input: nothing is at `/h/config.yaml` and the
existence check fails with `EACCES` (permission denied);
`checkAndOverWriteFile` returns no error, issues no call on the filesystem and
leaves the path without a file.  The same holds when the check fails with
`ENOTDIR` because the regular file `/h/f` stands on the way to
`/h/f/config.yaml`. -/
theorem checkAndOverWriteFile_swallows_stat_error :
    Stat deniedFS "/h/config.yaml".toList = .error .EACCES
    ∧ (checkAndOverWriteFile "/h/config.yaml".toList [7] deniedFS).1 = none
    ∧ (checkAndOverWriteFile "/h/config.yaml".toList [7] deniedFS).2.calls = []
    ∧ deniedFS.node "/h/config.yaml".toList = none
    ∧ (checkAndOverWriteFile "/h/config.yaml".toList [7] deniedFS).2.node
        "/h/config.yaml".toList = none
    ∧ Stat fileOnTheWayFS "/h/f/config.yaml".toList = .error .ENOTDIR
    ∧ (checkAndOverWriteFile "/h/f/config.yaml".toList [7] fileOnTheWayFS).1 = none
    ∧ (checkAndOverWriteFile "/h/f/config.yaml".toList [7] fileOnTheWayFS).2.node
        "/h/f/config.yaml".toList = none :=
  ⟨by rfl, by decide, by decide, by decide, by decide, by rfl, by decide, by decide⟩

end Standalone
